import Mathlib

/-!
# Register access, the tick loop and the try/catch mechanism of the wudoo VM

A shallow embedding of `src/cpu/debugger.cpp`: the raw register arrays
(`uregisters`, `ureferences`, `uregisters_size`), the object heap they point
into, `fetch`, `hasrefs`, `updaterefs`, `place`, `dispatch` and `tick`; and of
`src/cpu/instr/tcmechanism.cpp`: `tryframe`, `vmcatch`, `pull`, `vmtry`,
`vmthrow` and `leave`; then `ensureStaticRegisters`, `iframe` and `run` of
`debugger.cpp`, `Closure::copy` of `src/types/closure.cpp` and the file loader
of `src/front/wdb.cpp`.

Pointers are numbers and `0` is the null pointer.  The register arrays are raw
C arrays: they are modelled as functions on `Int`, the cell at index `i` being
the memory cell `i` places after the start of the array, so that an index
outside `0 .. uregisters_size - 1` still denotes a memory cell, as it does in
the source.
-/

namespace Wudoo

/-! ## Objects -/

/-- Modelled from the spec: the headers `types/object.h`, `types/integer.h`,
`types/byte.h` are not part of the sources at hand.  This is the datum that
`value()` gives access to in the variants of section 3 of the specification
(Integer, Byte, Float as its bit pattern, String, Vector as the addresses of
its elements); `none` stands for a variant without a value. -/
inductive Payload where
  | none
  | int (v : Int)
  | byte (v : Nat)
  | float (bits : Nat)
  | str (s : String)
  | vec (items : List Nat)
  deriving DecidableEq, Repr

/-- Modelled from the spec: an object is its dynamic class, which is what the
virtual `type()` answers, and the value it carries. -/
structure Object where
  type : String
  value : Payload
  deriving DecidableEq, Repr

/-- What a C++ `throw` inside the CPU can carry: a C string, a `std::string`,
a `HaltException`, an `Exception` object, a pointer to a heap-allocated
`Exception` (`throw new Exception(...)`), or the `std::out_of_range` of a
failed `map::at`.  The last constructor is not a throw: it marks a step whose
behaviour C++ leaves undefined (a null pointer dereferenced, `back()` of an
empty vector, a cast to the wrong class), where the model stops. -/
inductive Thrown where
  | cstr (e : String)
  | str (e : String)
  | halt
  | exception (message : String)
  | out_of_range
  | exception_ptr (message : String)
  | undefined
  deriving DecidableEq, Repr

deriving instance DecidableEq for Except

/-- Modelled from the spec: `cpu/frame.h` is not part of the sources at hand;
a call activation with its function name and its register set, under the names
`CPU::iframe` uses.  The pointers `registers` and `references` are modelled by
the contents of the arrays they point to at the time they are assigned. -/
structure Frame where
  function_name : String := ""
  registers_size : Int := 0
  registers : Int → Nat := fun _ => 0
  references : Int → Bool := fun _ => false

/-- Modelled from the spec: `cpu/catcher.h` is not part of the sources at
hand; the `Catcher{type, block_name, block_address}` of section 3, built by
`new Catcher(type_name, catcher_block_name, block_address)`. -/
structure Catcher where
  type : String
  block_name : String
  block_address : Int
  deriving DecidableEq, Repr

/-- Modelled from the spec: `cpu/tryframe.h` is not part of the sources at
hand; the try frame of section 3 with the members `tcmechanism.cpp` writes.
The pointer `associated_frame` is modelled by the frame it points to (null is
`none`), the map `catchers` by a function; `new TryFrame()` is the default
value. -/
structure TryFrame where
  return_address : Int := 0
  associated_frame : Option Frame := none
  block_name : String := ""
  catchers : String → Option Catcher := fun _ => none

/-- Modelled from the spec: the mask of a register slot, section 3. -/
inductive MASK where
  | MOVE
  | KEEP
  deriving DecidableEq, Repr

/-- Modelled from the spec: `cpu/registerset.h` is not part of the sources at
hand; the register set of section 3, a fixed-size array of slots indexed
`0 .. N-1` with a value (null when empty), a reference flag and a mask each. -/
structure RegisterSet where
  registerset_size : Nat := 0
  registers : Nat → Nat := fun _ => 0
  references : Nat → Bool := fun _ => false
  masks : Nat → MASK := fun _ => .MOVE

/-! ## The CPU state -/

/-- Modelled from the spec: `cpu/cpu.h` is not part of the sources at hand.
These are the members of `CPU` that `debugger.cpp` reads and writes, under the
names it uses, together with the two memories its pointers point into: `memory`
(bytes, for the bytecode) and `objects` (the heap of live objects; `destroyed`
logs every `delete`).  `instruction_counter` is the monotonic tick count of
section 3 of the specification, a natural number.  The members from `jump_base`
on are those `cpu/instr/tcmechanism.cpp` reads and writes; a `std::map` is a
function into `Option`, a `std::vector` a list whose last element is `back()`,
and the pointer `try_frame_new` is `none` when null.  `registers`, `references`
and `reg_count` are the register set the CPU owns, `static_registers` maps a
function name to the tuple of its static register arrays and their size;
`last_allocated` is the address of the object allocated last (`new` hands out
the next address) and `deleted_frames` logs the frames given to `delete`. -/
structure CPU where
  bytecode : Int := 0
  bytecode_size : Nat := 0
  executable_offset : Nat := 0
  memory : Int → Nat := fun _ => 0
  instruction_pointer : Int := 0
  instruction_counter : Nat := 0
  return_code : Int := 0
  return_exception : String := ""
  return_message : String := ""
  frames : List Frame := []
  uregisters : Int → Nat := fun _ => 0
  ureferences : Int → Bool := fun _ => false
  uregisters_size : Int := 0
  objects : Nat → Option Object := fun _ => none
  destroyed : List Nat := []
  debug : Bool := false
  stepping : Bool := false
  jump_base : Int := 0
  uregset : RegisterSet := {}
  tryframes : List TryFrame := []
  try_frame_new : Option TryFrame := none
  thrown : Nat := 0
  caught : Nat := 0
  function_addresses : String → Option Nat := fun _ => none
  block_addresses : String → Option Nat := fun _ => none
  linked_functions : String → Option (String × Int) := fun _ => none
  linked_blocks : String → Option (String × Int) := fun _ => none
  linked_modules : String → Option (Nat × Int) := fun _ => none
  registers : Int → Nat := fun _ => 0
  references : Int → Bool := fun _ => false
  reg_count : Int := 0
  commandline_arguments : List String := []
  static_registers : String → Option ((Int → Nat) × (Int → Bool) × Int) := fun _ => none
  last_allocated : Nat := 0
  deleted_frames : List Frame := []

/-- The result of running a member function: what it returned or threw, and
the state it left behind. -/
abbrev Outcome (α : Type) := Except Thrown α × CPU

/-- The C++ `delete p`: a null pointer is ignored, any other object is
removed from the heap and logged as destroyed. -/
def deleteObject (c : CPU) (p : Nat) : CPU :=
  if p = 0 then c
  else { c with objects := Function.update c.objects p none, destroyed := c.destroyed ++ [p] }

/-- The virtual call `p->type()`. -/
def typeOf (c : CPU) (p : Nat) : Option String :=
  (c.objects p).map Object.type

/-! ## fetch, copyvalue, updaterefs, hasrefs, place -/

/-- `CPU::fetch`. -/
def fetch (c : CPU) (index : Int) : Outcome Nat :=
  if index ≥ c.uregisters_size then (.error (.cstr "register access out of bounds: read"), c)
  else
    let optr := c.uregisters index
    if optr = 0 then (.error (.cstr ("read from null register: " ++ toString index)), c)
    else (.ok optr, c)

/-- `copyvalue<T>(a, b)`: `static_cast<T>(a)->value() = static_cast<T>(b)->value()`.
The cast checks nothing, so the value carried by `b` is stored into `a`
whatever `T` is; `a` keeps its class.  When either pointer does not point to a
live object the behaviour is undefined and the heap is left as it is. -/
def copyvalue (c : CPU) (a b : Nat) : CPU :=
  match c.objects a, c.objects b with
  | some oa, some ob =>
    { c with objects := Function.update c.objects a (some { oa with value := ob.value }) }
  | _, _ => c

/-- The loop of `CPU::updaterefs`: `n` iterations are left, the next one is
for register `i`. -/
def updaterefsLoop (before now : Nat) (ureferences : Int → Bool) :
    Nat → Int → (Int → Nat) → (Int → Nat)
  | 0, _, uregisters => uregisters
  | n + 1, i, uregisters =>
    updaterefsLoop before now ureferences n (i + 1)
      (if uregisters i = before ∧ ureferences i = true then Function.update uregisters i now
       else uregisters)

/-- `CPU::updaterefs`. -/
def updaterefs (c : CPU) (before now : Nat) : CPU :=
  { c with uregisters :=
      updaterefsLoop before now c.ureferences c.uregisters_size.toNat 0 c.uregisters }

/-- The loop of `CPU::hasrefs`: `n` iterations are left, the next one is for
register `i`. -/
def hasrefsLoop (uregisters : Int → Nat) (index : Int) : Nat → Int → Bool
  | 0, _ => false
  | n + 1, i =>
    if i = index then hasrefsLoop uregisters index n (i + 1)
    else if uregisters i = uregisters index then true
    else hasrefsLoop uregisters index n (i + 1)

/-- `CPU::hasrefs`. -/
def hasrefs (c : CPU) (index : Int) : Bool :=
  hasrefsLoop c.uregisters index c.uregisters_size.toNat 0

/-- `CPU::place`. -/
def place (c : CPU) (index : Int) (obj : Nat) : Outcome Unit :=
  if index ≥ c.uregisters_size then (.error (.cstr "register access out of bounds: write"), c)
  else
    let c1 :=
      if c.uregisters index ≠ 0 ∧ c.ureferences index = false then
        deleteObject c (c.uregisters index)
      else c
    if c1.ureferences index = true then
      match fetch c1 index with
      | (.error e, c2) => (.error e, c2)
      | (.ok referenced, c2) =>
        let c3 :=
          if typeOf c2 referenced = some "Integer" then copyvalue c2 referenced obj
          else if typeOf c2 referenced = some "Byte" then copyvalue c2 referenced obj
          else c2
        (.ok (), deleteObject c3 obj)
    else
      let old_ref_ptr := if hasrefs c1 index then c1.uregisters index else 0
      let c2 := { c1 with uregisters := Function.update c1.uregisters index obj }
      (.ok (), if old_ref_ptr ≠ 0 then updaterefs c2 old_ref_ptr obj else c2)

/-! ## Opcodes -/

/-- Modelled from the spec: `bytecode/opcodes.h` is not part of the sources at
hand; these are the stable opcode names of section 6 of the specification, in
the order in which it lists them. -/
inductive OPCODE where
  | IZERO
  | ISTORE
  | IADD
  | ISUB
  | IMUL
  | IDIV
  | IINC
  | IDEC
  | ILT
  | ILTE
  | IGT
  | IGTE
  | IEQ
  | FSTORE
  | FADD
  | FSUB
  | FMUL
  | FDIV
  | FLT
  | FLTE
  | FGT
  | FGTE
  | FEQ
  | BSTORE
  | ITOF
  | FTOI
  | STRSTORE
  | VEC
  | VINSERT
  | VPUSH
  | VPOP
  | VAT
  | VLEN
  | NOT
  | AND
  | OR
  | MOVE
  | COPY
  | REF
  | SWAP
  | FREE
  | EMPTY
  | ISNULL
  | RESS
  | TMPRI
  | TMPRO
  | PRINT
  | ECHO
  | FRAME
  | PARAM
  | PAREF
  | ARG
  | CALL
  | END
  | JUMP
  | BRANCH
  | HALT
  | PASS
  | NOP
  | TRYFRAME
  | CATCH
  | PULL
  | TRY
  | THROW
  | LEAVE
  deriving DecidableEq, Repr

/-- Modelled from the spec: the opcodes in declaration order; the numeric value
of an opcode is its position in this list (dense, starting at 0). -/
def OPCODE.all : List OPCODE :=
  [.IZERO, .ISTORE, .IADD, .ISUB, .IMUL, .IDIV, .IINC, .IDEC,
   .ILT, .ILTE, .IGT, .IGTE, .IEQ, .FSTORE, .FADD, .FSUB,
   .FMUL, .FDIV, .FLT, .FLTE, .FGT, .FGTE, .FEQ, .BSTORE,
   .ITOF, .FTOI, .STRSTORE, .VEC, .VINSERT, .VPUSH, .VPOP, .VAT,
   .VLEN, .NOT, .AND, .OR, .MOVE, .COPY, .REF, .SWAP,
   .FREE, .EMPTY, .ISNULL, .RESS, .TMPRI, .TMPRO, .PRINT, .ECHO,
   .FRAME, .PARAM, .PAREF, .ARG, .CALL, .END, .JUMP, .BRANCH,
   .HALT, .PASS, .NOP, .TRYFRAME, .CATCH, .PULL, .TRY, .THROW,
   .LEAVE]

/-- The cast `OPCODE(b)` of a byte, when the byte is the value of an opcode. -/
def OPCODE.ofByte (b : Nat) : Option OPCODE :=
  OPCODE.all[b]?

/-- Modelled from the spec: `bytecode/maps.h` is not part of the sources at
hand; the table of the opcode names. -/
def OP_NAMES : OPCODE → String
  | .IZERO => "izero"
  | .ISTORE => "istore"
  | .IADD => "iadd"
  | .ISUB => "isub"
  | .IMUL => "imul"
  | .IDIV => "idiv"
  | .IINC => "iinc"
  | .IDEC => "idec"
  | .ILT => "ilt"
  | .ILTE => "ilte"
  | .IGT => "igt"
  | .IGTE => "igte"
  | .IEQ => "ieq"
  | .FSTORE => "fstore"
  | .FADD => "fadd"
  | .FSUB => "fsub"
  | .FMUL => "fmul"
  | .FDIV => "fdiv"
  | .FLT => "flt"
  | .FLTE => "flte"
  | .FGT => "fgt"
  | .FGTE => "fgte"
  | .FEQ => "feq"
  | .BSTORE => "bstore"
  | .ITOF => "itof"
  | .FTOI => "ftoi"
  | .STRSTORE => "strstore"
  | .VEC => "vec"
  | .VINSERT => "vinsert"
  | .VPUSH => "vpush"
  | .VPOP => "vpop"
  | .VAT => "vat"
  | .VLEN => "vlen"
  | .NOT => "not"
  | .AND => "and"
  | .OR => "or"
  | .MOVE => "move"
  | .COPY => "copy"
  | .REF => "ref"
  | .SWAP => "swap"
  | .FREE => "free"
  | .EMPTY => "empty"
  | .ISNULL => "isnull"
  | .RESS => "ress"
  | .TMPRI => "tmpri"
  | .TMPRO => "tmpro"
  | .PRINT => "print"
  | .ECHO => "echo"
  | .FRAME => "frame"
  | .PARAM => "param"
  | .PAREF => "paref"
  | .ARG => "arg"
  | .CALL => "call"
  | .END => "end"
  | .JUMP => "jump"
  | .BRANCH => "branch"
  | .HALT => "halt"
  | .PASS => "pass"
  | .NOP => "nop"
  | .TRYFRAME => "tryframe"
  | .CATCH => "catch"
  | .PULL => "pull"
  | .TRY => "try"
  | .THROW => "throw"
  | .LEAVE => "leave"

/-- The lookup `OP_NAMES.at(OPCODE(b))`, which throws `std::out_of_range` for a
byte that is not the value of an opcode. -/
def OP_NAMES_at (b : Nat) : Option String :=
  (OPCODE.ofByte b).map OP_NAMES

/-! ## dispatch and tick -/

/-- The instruction handlers (`izero`, `istore`, ..., `branch`) are member
functions defined outside the sources at hand: they are a parameter, one
handler per opcode, taking the state and the address handed over by `dispatch`
and returning the next address or throwing. -/
abbrev Handlers := OPCODE → CPU → Int → Outcome Int

/-- The read `*((int*)p)`: four bytes, little-endian, as a signed 32-bit integer. -/
def readInt (c : CPU) (p : Int) : Int :=
  let u : Int := (c.memory p % 256 : Nat) + 256 * (c.memory (p + 1) % 256 : Nat) +
    65536 * (c.memory (p + 2) % 256 : Nat) + 16777216 * (c.memory (p + 3) % 256 : Nat)
  if u < 2147483648 then u else u - 4294967296

/-- `CPU::dispatch`. -/
def dispatch (h : Handlers) (c : CPU) (addr : Int) : Outcome Int :=
  match OPCODE.ofByte (c.memory addr) with
  | some .IZERO => h .IZERO c (addr + 1)
  | some .ISTORE => h .ISTORE c (addr + 1)
  | some .IADD => h .IADD c (addr + 1)
  | some .ISUB => h .ISUB c (addr + 1)
  | some .IMUL => h .IMUL c (addr + 1)
  | some .IDIV => h .IDIV c (addr + 1)
  | some .IINC => h .IINC c (addr + 1)
  | some .IDEC => h .IDEC c (addr + 1)
  | some .ILT => h .ILT c (addr + 1)
  | some .ILTE => h .ILTE c (addr + 1)
  | some .IGT => h .IGT c (addr + 1)
  | some .IGTE => h .IGTE c (addr + 1)
  | some .IEQ => h .IEQ c (addr + 1)
  | some .FSTORE => h .FSTORE c (addr + 1)
  | some .FADD => h .FADD c (addr + 1)
  | some .FSUB => h .FSUB c (addr + 1)
  | some .FMUL => h .FMUL c (addr + 1)
  | some .FDIV => h .FDIV c (addr + 1)
  | some .FLT => h .FLT c (addr + 1)
  | some .FLTE => h .FLTE c (addr + 1)
  | some .FGT => h .FGT c (addr + 1)
  | some .FGTE => h .FGTE c (addr + 1)
  | some .FEQ => h .FEQ c (addr + 1)
  | some .BSTORE => h .BSTORE c (addr + 1)
  | some .ITOF => h .ITOF c (addr + 1)
  | some .FTOI => h .FTOI c (addr + 1)
  | some .STRSTORE => h .STRSTORE c (addr + 1)
  | some .VEC => h .VEC c (addr + 1)
  | some .VINSERT => h .VINSERT c (addr + 1)
  | some .VPUSH => h .VPUSH c (addr + 1)
  | some .VPOP => h .VPOP c (addr + 1)
  | some .VAT => h .VAT c (addr + 1)
  | some .VLEN => h .VLEN c (addr + 1)
  | some .NOT => h .NOT c (addr + 1)
  | some .AND => h .AND c (addr + 1)
  | some .OR => h .OR c (addr + 1)
  | some .MOVE => h .MOVE c (addr + 1)
  | some .COPY => h .COPY c (addr + 1)
  | some .REF => h .REF c (addr + 1)
  | some .SWAP => h .SWAP c (addr + 1)
  | some .FREE => h .FREE c (addr + 1)
  | some .EMPTY => h .EMPTY c (addr + 1)
  | some .ISNULL => h .ISNULL c (addr + 1)
  | some .RESS => h .RESS c (addr + 1)
  | some .TMPRI => h .TMPRI c (addr + 1)
  | some .TMPRO => h .TMPRO c (addr + 1)
  | some .PRINT => h .PRINT c (addr + 1)
  | some .ECHO => h .ECHO c (addr + 1)
  | some .FRAME => h .FRAME c (addr + 1)
  | some .PARAM => h .PARAM c (addr + 1)
  | some .PAREF => h .PAREF c (addr + 1)
  | some .ARG => h .ARG c (addr + 1)
  | some .CALL => h .CALL c (addr + 1)
  | some .END => h .END c addr
  | some .JUMP => h .JUMP c (addr + 1)
  | some .BRANCH => h .BRANCH c (addr + 1)
  | some .HALT => (.error .halt, c)
  | some .PASS => (.ok (addr + 1), c)
  | some .NOP => (.ok (addr + 1), c)
  | _ =>
    (.error (.cstr ("unrecognised instruction (bytecode value: " ++
      toString (readInt c c.bytecode) ++ ")")), c)

/-- The message `tick` builds when the instruction pointer did not move. -/
def unchangedMessage (c : CPU) (name : String) : String :=
  "instruction pointer did not change, possibly endless loop\n" ++
  "note: instruction index was " ++ toString (c.instruction_pointer - c.bytecode) ++
  " and the opcode was \x27" ++ name ++ "\x27" ++
  (if OPCODE.ofByte (c.memory c.instruction_pointer) = some .CALL then
    "\n" ++ "note: this was caused by \x27call\x27 opcode immediately calling itself\n" ++
    "      such situation may have several sources, e.g. empty function definition or\n" ++
    "      a function which calls itself in its first instruction"
   else "")

/-- The statement `++instruction_counter` at the head of `tick`. -/
def counted (c : CPU) : CPU :=
  { c with instruction_counter := c.instruction_counter + 1 }

/-- `CPU::tick`.  The null pointer it returns to stop the loop is `0`.  Output
to the console and the wait for a line in stepping mode are left out; the
lookup `OP_NAMES.at` that the debug output performs can throw and is kept. -/
def tick (h : Handlers) (c : CPU) : Outcome Int :=
  let previous_instruction_pointer := c.instruction_pointer
  let c0 := counted c
  let attempt : Outcome Int :=
    if c0.debug = true ∧ OP_NAMES_at (c0.memory c0.instruction_pointer) = none then
      (.error .out_of_range, c0)
    else dispatch h c0 c0.instruction_pointer
  match attempt with
  | (.error (.cstr e), c1) =>
    (.ok 0, { c1 with return_code := 1, return_message := e,
                      return_exception := "RuntimeException" })
  | (.error (.str e), c1) =>
    (.ok 0, { c1 with return_code := 1, return_message := e,
                      return_exception := "RuntimeException" })
  | (.error .halt, c1) => (.ok 0, c1)
  | (.error t, c1) => (.error t, c1)
  | (.ok addr, c1) =>
    let c2 := { c1 with instruction_pointer := addr }
    if c2.frames.length = 0 then (.ok 0, c2)
    else if c2.instruction_pointer ≥ c2.bytecode + c2.bytecode_size then
      (.ok 0, { c2 with return_code := 1, return_exception := "InvalidBytecodeAddress",
                        return_message := "instruction address out of bounds" })
    else if c2.instruction_pointer = previous_instruction_pointer ∧
        OPCODE.ofByte (c2.memory c2.instruction_pointer) ≠ some .END then
      let c3 := { c2 with return_code := 2, return_exception := "InstructionUnchanged" }
      match OP_NAMES_at (c3.memory c3.instruction_pointer) with
      | none => (.error .out_of_range, c3)
      | some name => (.ok 0, { c3 with return_message := unchangedMessage c3 name })
    else (.ok c2.instruction_pointer, c2)

/-- The opcodes that have a `case` label in the `switch` of `CPU::dispatch`. -/
def OPCODE.handled : OPCODE → Bool
  | .TRYFRAME => false
  | .CATCH => false
  | .PULL => false
  | .TRY => false
  | .THROW => false
  | .LEAVE => false
  | _ => true

/-! ## Operand decoding in `cpu/instr/tcmechanism.cpp` -/

/-- The constructor `std::string(addr)` on a pointer into the bytecode: the
bytes from `addr` up to the first zero byte, which is left out, each byte
standing for one character.  The scan has no bound in the source; `fuel` is
the number of bytes the model may look at, and the answer is `none` when no
zero byte is met within it. -/
def cstring (memory : Int → Nat) : Nat → Int → Option (List Char)
  | 0, _ => none
  | fuel + 1, addr =>
    if memory addr = 0 then some []
    else (cstring memory fuel (addr + 1)).map (fun rest => Char.ofNat (memory addr) :: rest)

/-- The string operand at `addr`; its `size()` is the `length` of the result. -/
def readString (c : CPU) (fuel : Nat) (addr : Int) : Option String :=
  (cstring c.memory fuel addr).map String.mk

/-- The bytes at `addr` are the non-zero bytes of the characters `s` followed
by a zero byte: a zero-terminated string operand. -/
def HoldsString (memory : Int → Nat) : Int → List Char → Prop
  | addr, [] => memory addr = 0
  | addr, ch :: rest =>
    memory addr ≠ 0 ∧ Char.ofNat (memory addr) = ch ∧ HoldsString memory (addr + 1) rest

instance HoldsString.decidable (memory : Int → Nat) :
    ∀ (addr : Int) (s : List Char), Decidable (HoldsString memory addr s)
  | addr, [] => inferInstanceAs (Decidable (memory addr = 0))
  | addr, ch :: rest =>
    have := HoldsString.decidable memory (addr + 1) rest
    inferInstanceAs (Decidable (memory addr ≠ 0 ∧ Char.ofNat (memory addr) = ch ∧
      HoldsString memory (addr + 1) rest))

/-- The conversion `unsigned(i)` of an `int`. -/
def toUnsigned (i : Int) : Nat :=
  (i % 4294967296).toNat

/-- The conversion of an integer value to `int`, which has 32 bits: the value
modulo 2^32 that lies between -2^31 and 2^31 - 1. -/
def toInt (v : Int) : Int :=
  (v + 2147483648) % 4294967296 - 2147483648

/-- The read `static_cast<Integer*>(p)->value()`; undefined (`none`) when `p`
does not point to a live Integer. -/
def integerValue (c : CPU) (p : Nat) : Option Int :=
  match c.objects p with
  | some ⟨_, .int v⟩ => some v
  | _ => none

/-- The statement shared by `pull` and `vmthrow`:
`if (ref) { index = static_cast<Integer*>(fetch(index))->value(); }`. -/
def resolveIndex (c : CPU) (register_ref : Bool) (register_index : Int) : Outcome Int :=
  if register_ref = true then
    match fetch c register_index with
    | (.error e, c1) => (.error e, c1)
    | (.ok p, c1) =>
      match integerValue c1 p with
      | some v => (.ok v, c1)
      | none => (.error .undefined, c1)
  else (.ok register_index, c)

/-! ## The register set used by `cpu/instr/tcmechanism.cpp` -/

/-- Modelled from the spec: `RegisterSet::size()`, the number of slots. -/
def RegisterSet.size (rs : RegisterSet) : Nat :=
  rs.registerset_size

/-- Modelled from the spec: `RegisterSet::at(index)`, the pointer held in a
slot, null when the slot is empty; by (I4) the index is checked against the
size. -/
def RegisterSet.at (rs : RegisterSet) (index : Nat) : Except Thrown Nat :=
  if index ≥ rs.registerset_size then
    .error (.exception_ptr "register access out of bounds: read")
  else .ok (rs.registers index)

/-- Modelled from the spec: `RegisterSet::get(index)`, the object held in a
slot; by (I4) the index is checked against the size, and reading an empty slot
fails. -/
def RegisterSet.get (rs : RegisterSet) (index : Nat) : Except Thrown Nat :=
  if index ≥ rs.registerset_size then
    .error (.exception_ptr "register access out of bounds: read")
  else if rs.registers index = 0 then
    .error (.exception_ptr ("read from null register: " ++ toString index))
  else .ok (rs.registers index)

/-- Modelled from the spec: `RegisterSet::setmask(index, mask)`; by (I4) the
index is checked against the size. -/
def RegisterSet.setmask (rs : RegisterSet) (index : Nat) (mask : MASK) :
    Except Thrown RegisterSet :=
  if index ≥ rs.registerset_size then
    .error (.exception_ptr "register access out of bounds: mask")
  else .ok { rs with masks := Function.update rs.masks index mask }

/-- The member function `RegisterSet::set(index, object)` is defined outside
the sources at hand: it is a parameter, taking the state, the index and the
object handed over by `pull`, and storing the object or throwing. -/
abbrev RegisterSetSet := CPU → Int → Nat → Outcome Unit

/-- Modelled from the spec: `RegisterSet::set(index, object)` of section 4.B is
not part of the sources at hand.  It works on the current register set
`uregset`.  By (I4) the index is checked against the size.  A reference slot
keeps what it holds: the value carried by `object` is stored into the referent
and `object` is destroyed (looking up the referent of an empty slot is a read
from a null register).  A slot that is not a reference takes `object`; the
object it held is destroyed first unless another slot holds the same address,
and every reference slot that held the old address is redirected to `object`. -/
def RegisterSet.set : RegisterSetSet := fun c index object =>
  if index < 0 ∨ index ≥ c.uregset.registerset_size then
    (.error (.exception_ptr "register access out of bounds: write"), c)
  else if c.uregset.references index.toNat = true then
    if c.uregset.registers index.toNat = 0 then
      (.error (.exception_ptr ("read from null register: " ++ toString index)), c)
    else
      (.ok (), deleteObject (copyvalue c (c.uregset.registers index.toNat) object) object)
  else
    let old := c.uregset.registers index.toNat
    let aliased := (List.range c.uregset.registerset_size).any
      (fun j => decide (j ≠ index.toNat ∧ c.uregset.registers j = old))
    let c1 := if old ≠ 0 ∧ aliased = false then deleteObject c old else c
    let placed := Function.update c.uregset.registers index.toNat object
    (.ok (), { c1 with uregset := { c.uregset with
      registers := fun j =>
        if old ≠ 0 ∧ j < c.uregset.registerset_size ∧ c.uregset.references j = true ∧
            placed j = old then object
        else placed j } })

/-! ## tryframe, catch, pull, try, throw, leave -/

/-- `CPU::tryframe`. -/
def tryframe (c : CPU) (addr : Int) : Outcome Int :=
  match c.try_frame_new with
  | some _ => (.error (.cstr "new block frame requested while last one is unused"), c)
  | none => (.ok addr, { c with try_frame_new := some {} })

/-- The statements shared by `vmcatch` and `vmtry` that turn the name of a
block that was found into its address and set `jump_base`: a local block when
`block_addresses` has the name, else a linked one, both looked up with `at`. -/
def resolveBlock (c : CPU) (block_name : String) : Outcome Int :=
  match c.block_addresses block_name with
  | some offset => (.ok (c.bytecode + offset), { c with jump_base := c.bytecode })
  | none =>
    match c.linked_blocks block_name with
    | none => (.error .out_of_range, c)
    | some (module_name, address) =>
      match c.linked_modules module_name with
      | none => (.error .out_of_range, c)
      | some (_, base) => (.ok address, { c with jump_base := base })

/-- `CPU::vmcatch`.  The answer is `none` when a string operand has no zero
byte within `fuel` bytes. -/
def vmcatch (fuel : Nat) (c : CPU) (addr : Int) : Option (Outcome Int) :=
  match readString c fuel addr with
  | none => none
  | some type_name =>
    let addr1 := addr + (type_name.length + 1 : Nat)
    match readString c fuel addr1 with
    | none => none
    | some catcher_block_name =>
      let addr2 := addr1 + (catcher_block_name.length + 1 : Nat)
      let block_found := (c.block_addresses catcher_block_name).isSome ||
        (c.linked_blocks catcher_block_name).isSome
      if block_found = false then
        some (.error (.exception_ptr
          ("registering undefined handler block: " ++ catcher_block_name)), c)
      else
        match resolveBlock c catcher_block_name with
        | (.error e, c1) => some (.error e, c1)
        | (.ok block_address, c1) =>
          match c1.try_frame_new with
          | none => some (.error .undefined, c1)
          | some frame =>
            some (.ok addr2, { c1 with try_frame_new := some { frame with
              catchers := Function.update frame.catchers type_name
                (some ⟨type_name, catcher_block_name, block_address⟩) } })

/-- `CPU::pull`.  A `bool` is one byte and an `int` four. -/
def pull (set : RegisterSetSet) (c : CPU) (addr : Int) : Outcome Int :=
  let destination_register_ref : Bool := decide (c.memory addr ≠ 0)
  let addr1 := addr + 1
  let destination_register_index := readInt c addr1
  let addr2 := addr1 + 4
  match resolveIndex c destination_register_ref destination_register_index with
  | (.error e, c1) => (.error e, c1)
  | (.ok index, c1) =>
    if c1.caught = 0 then (.error (.exception_ptr "no caught object to pull"), c1)
    else
      match set c1 index c1.caught with
      | (.error e, c2) => (.error e, c2)
      | (.ok _, c2) => (.ok addr2, { c2 with caught := 0 })

/-- `CPU::vmtry`.  The answer is `none` when the string operand has no zero
byte within `fuel` bytes. -/
def vmtry (fuel : Nat) (c : CPU) (addr : Int) : Option (Outcome Int) :=
  match readString c fuel addr with
  | none => none
  | some block_name =>
    let block_found := (c.block_addresses block_name).isSome ||
      (c.linked_blocks block_name).isSome
    if block_found = false then
      some (.error (.exception_ptr ("try of undefined block: " ++ block_name)), c)
    else
      match resolveBlock c block_name with
      | (.error e, c1) => some (.error e, c1)
      | (.ok block_address, c1) =>
        match c1.try_frame_new, c1.frames.getLast? with
        | some frame, some top =>
          some (.ok block_address, { c1 with
            tryframes := c1.tryframes ++ [{ frame with
              return_address := addr + (block_name.length : Nat)
              associated_frame := some top
              block_name := block_name }]
            try_frame_new := none })
        | _, _ => some (.error .undefined, c1)

/-- `CPU::vmthrow`.  A `bool` is one byte and an `int` four. -/
def vmthrow (c : CPU) (addr : Int) : Outcome Int :=
  let source_register_ref : Bool := decide (c.memory addr ≠ 0)
  let addr1 := addr + 1
  let source_register_index := readInt c addr1
  let addr2 := addr1 + 4
  match resolveIndex c source_register_ref source_register_index with
  | (.error e, c1) => (.error e, c1)
  | (.ok index, c1) =>
    if toUnsigned index ≥ c1.uregset.size then
      (.error (.exception_ptr
        ("invalid read: register out of bounds: " ++ toString index)), c1)
    else
      match c1.uregset.at (toUnsigned index) with
      | .error e => (.error e, c1)
      | .ok held =>
        if held = 0 then
          (.error (.exception_ptr
            ("invalid throw: register " ++ toString index ++ " is empty")), c1)
        else
          match c1.uregset.setmask (toUnsigned index) .KEEP with
          | .error e => (.error e, c1)
          | .ok masked =>
            let c2 := { c1 with uregset := masked }
            match c2.uregset.get (toUnsigned index) with
            | .error e => (.error e, c2)
            | .ok object => (.ok addr2, { c2 with thrown := object })

/-- `CPU::leave`. -/
def leave (c : CPU) (_addr : Int) : Outcome Int :=
  match c.tryframes.getLast? with
  | none => (.error (.exception "bad leave: no block has been entered"), c)
  | some back =>
    let addr := back.return_address
    let c1 := { c with tryframes := c.tryframes.dropLast }
    match c1.frames.getLast? with
    | none => (.ok addr, c1)
    | some top =>
      if (c1.function_addresses top.function_name).isSome = true then
        (.ok addr, { c1 with jump_base := c1.bytecode })
      else
        match c1.linked_functions top.function_name with
        | none => (.error .out_of_range, c1)
        | some (module_name, _) =>
          match c1.linked_modules module_name with
          | none => (.error .out_of_range, c1)
          | some (_, base) => (.ok addr, { c1 with jump_base := base })

/-! ## ensureStaticRegisters, begin, iframe, run -/

/-- The loop of `CPU::ensureStaticRegisters` that zeroes the new arrays: `n`
iterations are left, the next one is for register `i`. -/
def zeroLoop : Nat → Int → (Int → Nat) × (Int → Bool) → (Int → Nat) × (Int → Bool)
  | 0, _, arrays => arrays
  | n + 1, i, arrays =>
    zeroLoop n (i + 1) (Function.update arrays.1 i 0, Function.update arrays.2 i false)

/-- `CPU::ensureStaticRegisters`.  The two arrays come from `new[]`, which
does not initialise them: what they hold at first is a parameter. -/
def ensureStaticRegisters (fresh_registers : Int → Nat) (fresh_references : Int → Bool)
    (c : CPU) (function_name : String) : CPU :=
  match c.static_registers function_name with
  | some _ => c
  | none =>
    let s_registers_size : Int := 16
    let arrays := zeroLoop s_registers_size.toNat 0 (fresh_registers, fresh_references)
    let entry := (arrays.1, arrays.2, s_registers_size)
    { c with static_registers := Function.update c.static_registers function_name (some entry) }

/-- `CPU::begin`. -/
def begin (c : CPU) : Int × CPU :=
  (c.bytecode + c.executable_offset,
    { c with instruction_pointer := c.bytecode + c.executable_offset })

/-- The operator `new` for an object: the address after the one allocated last. -/
def newObject (c : CPU) (o : Object) : Nat × CPU :=
  (c.last_allocated + 1,
    { c with objects := Function.update c.objects (c.last_allocated + 1) (some o)
             last_allocated := c.last_allocated + 1 })

/-- Modelled from the spec: `Vector::push`, which appends a pointer to the
elements of the vector at address `v`. -/
def vectorPush (c : CPU) (v item : Nat) : CPU :=
  match c.objects v with
  | some ⟨type, .vec items⟩ =>
    { c with objects := Function.update c.objects v (some ⟨type, .vec (items ++ [item])⟩) }
  | _ => c

/-- The loop of `CPU::iframe` over the command-line arguments:
`cmdline->push(new String(commandline_arguments[i]))`. -/
def cmdlineLoop (cmdline : Nat) : List String → CPU → CPU
  | [], c => c
  | argument :: rest, c =>
    cmdlineLoop cmdline rest
      (vectorPush (newObject c ⟨"String", .str argument⟩).2 cmdline
        (newObject c ⟨"String", .str argument⟩).1)

/-- `CPU::iframe`; `frm` is `none` for the null pointer, the default. -/
def iframe (c : CPU) (frm : Option Frame) : CPU :=
  match frm with
  | none =>
    let cmdline := (newObject c ⟨"Vector", .vec []⟩).1
    let c1 := cmdlineLoop cmdline c.commandline_arguments (newObject c ⟨"Vector", .vec []⟩).2
    let c2 := { c1 with registers := Function.update c1.registers 1 cmdline }
    let initial_frame : Frame :=
      { registers := c2.registers
        references := c2.references
        registers_size := c2.reg_count
        function_name := "__entry" }
    { c2 with uregisters := initial_frame.registers
              ureferences := initial_frame.references
              uregisters_size := initial_frame.registers_size
              frames := c2.frames ++ [initial_frame] }
  | some initial_frame =>
    { c with uregisters := initial_frame.registers
             ureferences := initial_frame.references
             uregisters_size := initial_frame.registers_size
             frames := c.frames ++ [initial_frame] }

/-- The loop `while (tick()) {}` of `CPU::run`; `none` when it has not ended
within `fuel` ticks. -/
def tickLoop (h : Handlers) : Nat → CPU → Option (Outcome Unit)
  | 0, _ => none
  | fuel + 1, c =>
    match tick h c with
    | (.error t, c1) => some (.error t, c1)
    | (.ok addr, c1) => if addr = 0 then some (.ok (), c1) else tickLoop h fuel c1

/-- `CPU::run`; `none` when the tick loop has not ended within `fuel` ticks.
The function returns an `int`: the value of the Integer in register 0 is
converted to `int` when it is stored into `return_code`, and the code returned
is an `int`. -/
def run (h : Handlers) (fuel : Nat) (c : CPU) : Option (Outcome Int) :=
  if c.bytecode = 0 then some (.error (.cstr "null bytecode (maybe not loaded?)"), c)
  else
    match tickLoop h fuel (begin (iframe c none)).2 with
    | none => none
    | some (.error t, c1) => some (.error t, c1)
    | some (.ok _, c1) =>
      let returned : Option CPU :=
        if c1.return_code = 0 ∧ c1.uregisters 0 ≠ 0 then
          (integerValue c1 (c1.uregisters 0)).map
            (fun v => { c1 with return_code := toInt v })
        else some c1
      match returned with
      | none => some (.error .undefined, c1)
      | some c2 =>
        if c2.return_exception = "" then
          match c2.frames.getLast? with
          | none => some (.error .undefined, c2)
          | some back =>
            some (.ok (toInt c2.return_code),
              { c2 with deleted_frames := c2.deleted_frames ++ [back] })
        else some (.ok (toInt c2.return_code), c2)

/-! ## Closures (`types/closure.cpp`) -/

/-- The members of `Closure`, as its constructor in `types/closure.cpp`
initialises them; the pointers to the argument and register arrays are numbers
(`0` is null), the default value is what `Closure::Closure()` builds. -/
structure Closure where
  arguments : Nat := 0
  argreferences : Nat := 0
  arguments_size : Int := 0
  registers : Nat := 0
  references : Nat := 0
  registers_size : Int := 0
  function_name : String := ""
  deriving DecidableEq, Repr

/-- `Closure::type`. -/
def Closure.type (_ : Closure) : String :=
  "Closure"

/-- `Closure::str`. -/
def Closure.str (closure : Closure) : String :=
  "Closure: " ++ closure.function_name

/-- `Closure::repr`. -/
def Closure.repr (closure : Closure) : String :=
  closure.str

/-- `Closure::boolean`. -/
def Closure.boolean (_ : Closure) : Bool :=
  true

/-- `Closure::copy`. -/
def Closure.copy (closure : Closure) : Closure :=
  let clsr : Closure := {}
  { clsr with
    function_name := closure.function_name
    registers := closure.registers
    references := closure.references
    registers_size := closure.registers_size }

/-! ## The loader of the debugger front end (`front/wdb.cpp`) -/

/-- The input file stream of `main`: the bytes of the file, the read position
and the fail state that `!in` tests. -/
structure IStream where
  data : List Nat
  position : Nat := 0
  fail : Bool := false

/-- The call `in.read(buffer, n)`: on a stream that has failed nothing is read;
otherwise up to `n` bytes are taken from the file and stored at the start of
the buffer, and the stream fails when fewer than `n` were left. -/
def IStream.read (s : IStream) (buffer : List Nat) (n : Nat) : List Nat × IStream :=
  if s.fail = true then (buffer, s)
  else
    let got := (s.data.drop s.position).take n
    (got ++ buffer.drop got.length,
      { s with position := s.position + got.length, fail := decide (got.length < n) })

/-- The read `*((uint16_t*)p)` of the two bytes `lo`, `hi` at `p`, little-endian. -/
def uint16 (lo hi : Nat) : Nat :=
  lo % 256 + 256 * (hi % 256)

/-- The constructor `std::string(p)` on a pointer into a buffer whose bytes
from `p` on are the list given: the characters up to the first zero byte;
`none` when there is no zero byte, the read then runs past the buffer. -/
def cstringOfList : List Nat → Option (List Char)
  | [] => none
  | b :: rest =>
    if b = 0 then some [] else (cstringOfList rest).map (fun tail => Char.ofNat b :: tail)

/-- How a loop of the loader ends in the model: with a value, with a read past
the end of a buffer (undefined in C++), or with the fuel of the model used up. -/
inductive Parsed (α : Type) where
  | done (value : α)
  | undefined
  | out_of_fuel

/-- The loop of `main` that extracts the function id-to-address mapping from
the buffer of `function_ids_section_size` bytes: the first argument is the
number of iterations the model may still run, then come `i` and the mapping. -/
def functionTableLoop (buffer : List Nat) (function_ids_section_size : Nat) :
    Nat → Nat → (String → Option Nat) → Parsed (String → Option Nat)
  | 0, i, mapping =>
    if i < function_ids_section_size then .out_of_fuel else .done mapping
  | fuel + 1, i, mapping =>
    if i < function_ids_section_size then
      match cstringOfList (buffer.drop i) with
      | none => .undefined
      | some name =>
        let fn_name := String.mk name
        let i1 := i + (fn_name.length + 1)
        match buffer.drop i1 with
        | lo :: hi :: _ =>
          let fn_address := uint16 lo hi
          let i2 := i1 + 2
          functionTableLoop buffer function_ids_section_size fuel i2
            (Function.update mapping fn_name (some fn_address))
        | _ => .undefined
    else .done mapping

/-- What `main` has in hand once the file is read. -/
structure Loaded where
  function_address_mapping : String → Option Nat
  bytes : Nat
  starting_instruction : Nat
  bytecode : List Nat

/-- The part of `main` in `front/wdb.cpp` that reads the file, from the opening
of the stream to `in.close()`: the result is a fatal message (`main` returns 1)
or what was loaded.  `uninitialised k` is what cell `k` of an array holds
before anything is stored in it. -/
def loadFile (uninitialised : Nat → Nat) (file : List Nat) : Parsed (Except String Loaded) :=
  let in0 : IStream := { data := file }
  let buffer0 := (List.range 16).map uninitialised
  let r1 := in0.read buffer0 2
  let function_ids_section_size := uint16 (r1.1.getD 0 0) (r1.1.getD 1 0)
  let r2 := r1.2.read ((List.range function_ids_section_size).map uninitialised)
    function_ids_section_size
  match functionTableLoop r2.1 function_ids_section_size function_ids_section_size 0
      (fun _ => none) with
  | .out_of_fuel => .out_of_fuel
  | .undefined => .undefined
  | .done mapping =>
    let r3 := r2.2.read r1.1 16
    if r3.2.fail = true then
      .done (.error "fatal: an error occued during bytecode loading: cannot read size")
    else
      let bytes := uint16 (r3.1.getD 0 0) (r3.1.getD 1 0)
      let starting_instruction := (mapping "__entry").getD 0
      let mapping1 := Function.update mapping "__entry" (some starting_instruction)
      let r4 := r3.2.read ((List.range bytes).map uninitialised) bytes
      if r4.2.fail = true then
        .done (.error "fatal: an error occued during bytecode loading: cannot read instructions")
      else
        .done (.ok { function_address_mapping := mapping1
                     bytes := bytes
                     starting_instruction := starting_instruction
                     bytecode := r4.1 })

/-- Modelled from the spec: the function table of section 6, each entry a
zero-terminated name followed by the offset as a 16-bit little-endian
integer. -/
def encodeFunctionTable : List (String × Nat) → List Nat
  | [] => []
  | entry :: rest =>
    entry.1.data.map Char.toNat ++ 0 :: entry.2 % 256 :: entry.2 / 256 % 256 ::
      encodeFunctionTable rest

/-- The mapping after the entries have been stored in it one after the other,
a later entry replacing an earlier one of the same name. -/
def storeEntries (entries : List (String × Nat)) (mapping : String → Option Nat) :
    String → Option Nat :=
  entries.foldl (fun m e => Function.update m e.1 (some e.2)) mapping

/-- Modelled from the spec: a bytecode file of section 6 for a function table
and a bytecode image: the size of the table and the size of the image are
16-bit little-endian integers in front of each. -/
def encodeFile (entries : List (String × Nat)) (image : List Nat) : List Nat :=
  (encodeFunctionTable entries).length % 256 :: (encodeFunctionTable entries).length / 256 % 256 ::
    (encodeFunctionTable entries ++ image.length % 256 :: image.length / 256 % 256 :: image)

/-! ## Concrete machine states used as inputs -/

/-- Two registers: register 0 owns the Integer 1 at address 5, register 1 is a
reference to it. -/
def aliasedCPU : CPU :=
  { uregisters_size := 2
    uregisters := fun i => if i = 0 ∨ i = 1 then 5 else 0
    ureferences := fun i => decide (i = 1)
    objects := fun p =>
      if p = 5 then some ⟨"Integer", .int 1⟩
      else if p = 6 then some ⟨"Integer", .int 42⟩
      else none }

/-- Two registers: register 0 owns the String "a" at address 10, register 1 is
a reference to it; a String "b" lives at address 11, held by no register. -/
def stringCPU : CPU :=
  { uregisters_size := 2
    uregisters := fun i => if i = 0 ∨ i = 1 then 10 else 0
    ureferences := fun i => decide (i = 1)
    objects := fun p =>
      if p = 10 then some ⟨"String", .str "a"⟩
      else if p = 11 then some ⟨"String", .str "b"⟩
      else none }

/-- Two empty registers. -/
def emptyCPU : CPU := { uregisters_size := 2 }

/-- A loaded image of four bytes at address 100 whose first byte is `jump`,
with the entry frame on the frame stack and the instruction pointer at the
start of the image. -/
def jumpCPU : CPU :=
  { bytecode := 100
    bytecode_size := 4
    instruction_pointer := 100
    memory := fun a => if a = 100 then 54 else 0
    frames := [{ function_name := "__entry" }] }

/-- Handlers that all return address 50 and change nothing. -/
def backwardHandlers : Handlers := fun _ c _ => (.ok 50, c)

/-- Handlers that return the address of the opcode they were dispatched from
(the operand address less one) and change nothing. -/
def stuckHandlers : Handlers := fun _ c addr => (.ok (addr - 1), c)

/-- Handlers that all throw a C string and change nothing. -/
def raisingHandlers : Handlers :=
  fun _ c _ => (.error (.cstr "register access out of bounds: read"), c)

/-- The image of `jumpCPU` with the byte 200, which is no opcode, at the
instruction pointer, and the debug flag set. -/
def garbageDebugCPU : CPU :=
  { bytecode := 100
    bytecode_size := 4
    instruction_pointer := 100
    memory := fun a => if a = 100 then 200 else 0
    frames := [{ function_name := "__entry" }]
    debug := true }

/-- The image of `jumpCPU` with `halt` at the instruction pointer. -/
def haltCPU : CPU :=
  { bytecode := 100
    bytecode_size := 4
    instruction_pointer := 100
    memory := fun a => if a = 100 then 56 else 0
    frames := [{ function_name := "__entry" }] }

/-- The bytes of a small program: `tryframe`; `catch "E" "h"`; `try "g"`;
`end`; then `try "x"` and `catch "E" "x"`, which name a block that is not
defined; then the blocks "g" (offset 18) and "h" (offset 20), each a `leave`. -/
def tryProgram : List Nat :=
  [59, 60, 69, 0, 104, 0, 62, 103, 0, 53, 62, 120, 0, 60, 69, 0, 120, 0, 64, 64, 64, 0, 0, 0]

/-- The program `tryProgram` loaded at address 100, the entry frame on the
frame stack and a fresh try frame pending: the state in which `catch` at 101 or
`try` at 106 runs. -/
def tryCPU : CPU :=
  { bytecode := 100
    bytecode_size := 24
    instruction_pointer := 106
    memory := fun a => if 100 ≤ a then tryProgram.getD (a - 100).toNat 0 else 0
    frames := [{ function_name := "__entry" }]
    try_frame_new := some {}
    function_addresses := fun name => if name = "__entry" then some 0 else none
    block_addresses := fun name =>
      if name = "g" then some 18 else if name = "h" then some 20 else none }

/-- A direct register operand at address 200 (flag byte 0, then the integer
1) for a register set of two slots whose slot 1 holds the object at address 7;
the object at address 9 has been caught and waits to be pulled. -/
def operandCPU : CPU :=
  { memory := fun a => if a = 201 then 1 else 0
    uregset := { registerset_size := 2, registers := fun i => if i = 1 then 7 else 0 }
    caught := 9 }

/-- The state `operandCPU` with the operand 5 at address 201: there is no
register 5 in a register set of two slots. -/
def outsideOperandCPU : CPU :=
  { operandCPU with memory := fun a => if a = 201 then 5 else 0 }

/-- The state `operandCPU` whose slot 1 is a reference to the Integer 1 at
address 7; the caught object at address 9 is the Integer 5. -/
def referenceOperandCPU : CPU :=
  { operandCPU with
    uregset := { operandCPU.uregset with references := fun i => decide (i = 1) }
    objects := fun p =>
      if p = 7 then some ⟨"Integer", .int 1⟩
      else if p = 9 then some ⟨"Integer", .int 5⟩
      else none }

/-- The state `tryCPU` after `try "g"`: the try frame is on the try-frame stack
with return address 108, none is pending. -/
def enteredCPU : CPU :=
  { tryCPU with
    instruction_pointer := 118
    try_frame_new := none
    tryframes := [{ return_address := 108
                    associated_frame := some { function_name := "__entry" }
                    block_name := "g" }] }

/-- The state `enteredCPU` with a top frame whose function is neither in
`function_addresses` nor in `linked_functions`. -/
def orphanCPU : CPU :=
  { enteredCPU with frames := [{ function_name := "lost" }] }

/-- The invariant (I1) on the current register set: no object is held by two
slots that are both not flagged as references. -/
def SoleOwnership (c : CPU) : Prop :=
  ∀ j k : Int, 0 ≤ j → j < c.uregisters_size → 0 ≤ k → k < c.uregisters_size → j ≠ k →
    c.ureferences j = false → c.ureferences k = false → c.uregisters j ≠ 0 →
    c.uregisters j ≠ c.uregisters k

/-- A state whose memory holds the byte `b` everywhere, with the entry frame on
the frame stack. -/
def opcodeCPU (b : Nat) : CPU :=
  { bytecode := 100
    bytecode_size := 4
    instruction_pointer := 100
    memory := fun _ => b
    frames := [{ function_name := "__entry" }] }

/-- The state `tryCPU` while code of a linked module runs: `jump_base` is the
base 500 of that module, not the base 100 of the main image. -/
def linkedCodeCPU : CPU :=
  { tryCPU with jump_base := 500 }

/-- A loaded program that is one `halt`, at address 100; the CPU owns 16
registers, register 0 of which holds the Integer 5 at address 90; there are two
command-line arguments. -/
def loadedCPU : CPU :=
  { bytecode := 100
    bytecode_size := 4
    memory := fun a => if a = 100 then 56 else 0
    reg_count := 16
    registers := fun i => if i = 0 then 90 else 0
    objects := fun p => if p = 90 then some ⟨"Integer", .int 5⟩ else none
    commandline_arguments := ["a", "b"] }

/-- The state `loadedCPU` whose register 0 holds the Integer 2^32 + 5. -/
def wideCPU : CPU :=
  { loadedCPU with
    objects := fun p => if p = 90 then some ⟨"Integer", .int 4294967301⟩ else none }

/-- Modelled from the spec: the handlers `call` and `end` of section 4.C are
not part of the sources at hand.  Of `call` this keeps that it pushes a frame
for the callee and makes the registers of that frame the current ones (the
callee starts with the object at address 91 in its register 0 and is entered at
the address that follows the opcode), of `end` that it pops the top frame;
every other handler returns the address it was given. -/
def frameHandlers : Handlers := fun op c addr =>
  match op with
  | .CALL =>
    (.ok addr, { c with
      frames := c.frames ++ [{ function_name := "f"
                               registers_size := 16
                               registers := fun i => if i = 0 then 91 else 0 }]
      uregisters := fun i => if i = 0 then 91 else 0
      ureferences := fun _ => false
      uregisters_size := 16 })
  | .END => (.ok addr, { c with frames := c.frames.dropLast })
  | _ => (.ok addr, c)

/-- A loaded program that is `call` followed by `halt`, at address 100;
register 0 of the CPU, which becomes register 0 of the entry frame, holds the
Integer 5 at address 90, and the object at address 91 is the Integer 7. -/
def calleeCPU : CPU :=
  { bytecode := 100
    bytecode_size := 4
    memory := fun a => if a = 100 then 52 else if a = 101 then 56 else 0
    reg_count := 16
    registers := fun i => if i = 0 then 90 else 0
    objects := fun p =>
      if p = 90 then some ⟨"Integer", .int 5⟩
      else if p = 91 then some ⟨"Integer", .int 7⟩
      else none }

/-- A loaded program that is one `end`, at address 100; every register of the
CPU is empty. -/
def endCPU : CPU :=
  { bytecode := 100
    bytecode_size := 4
    memory := fun a => if a = 100 then 53 else 0
    reg_count := 16 }

/-- The fatal message `main` prints before it returns 1, if it does. -/
def fatalMessage : Parsed (Except String Loaded) → Option String
  | .done (.error message) => some message
  | _ => none

/-- The bytecode size and the bytecode image `main` has loaded, if it has. -/
def loadedImage : Parsed (Except String Loaded) → Option (Nat × List Nat)
  | .done (.ok loaded) => some (loaded.bytes, loaded.bytecode)
  | _ => none

/-- A file of the layout of section 6: the function table holds `__entry` at
offset 0, the bytecode is the three bytes `halt`, 0, 0. -/
def smallFile : List Nat :=
  encodeFile [("__entry", 0)] [56, 0, 0]

/-- A file with an empty function table, the bytecode size 2 and then the
sixteen bytes 11 to 26. -/
def longFile : List Nat :=
  [0, 0, 2, 0, 11, 12, 13, 14, 15, 16, 17, 18, 19, 20, 21, 22, 23, 24, 25, 26]

/-! ## Facts about the loops -/

theorem updaterefsLoop_apply (before now : Nat) (ureferences : Int → Bool) (n : Nat) :
    ∀ (i : Int) (uregisters : Int → Nat) (j : Int),
      updaterefsLoop before now ureferences n i uregisters j =
        if i ≤ j ∧ j < i + n ∧ uregisters j = before ∧ ureferences j = true then now
        else uregisters j := by
  induction n with
  | zero =>
    intro i uregisters j
    have : ¬ (i ≤ j ∧ j < i + (0 : Nat) ∧ uregisters j = before ∧ ureferences j = true) := by
      rintro ⟨h1, h2, -⟩
      omega
    simp only [updaterefsLoop, if_neg this]
  | succ n ih =>
    intro i uregisters j
    rw [updaterefsLoop, ih]
    by_cases hji : j = i
    · subst hji
      have h1 : ¬ (j + 1 ≤ j ∧ j < j + 1 + (n : Int) ∧
          (if uregisters j = before ∧ ureferences j = true then Function.update uregisters j now
            else uregisters) j = before ∧ ureferences j = true) := by
        rintro ⟨h, -⟩
        omega
      rw [if_neg h1]
      by_cases hc : uregisters j = before ∧ ureferences j = true
      · have h2 : j ≤ j ∧ j < j + ((n + 1 : Nat) : Int) ∧ uregisters j = before ∧
            ureferences j = true := ⟨le_refl _, by omega, hc.1, hc.2⟩
        rw [if_pos hc, if_pos h2, Function.update_same]
      · have h2 : ¬ (j ≤ j ∧ j < j + ((n + 1 : Nat) : Int) ∧ uregisters j = before ∧
            ureferences j = true) := fun h => hc ⟨h.2.2.1, h.2.2.2⟩
        rw [if_neg hc, if_neg h2]
    · have hval : (if uregisters i = before ∧ ureferences i = true then
            Function.update uregisters i now else uregisters) j = uregisters j := by
        split
        · exact Function.update_noteq hji _ _
        · rfl
      rw [hval]
      have hiff : (i + 1 ≤ j ∧ j < i + 1 + (n : Int) ∧ uregisters j = before ∧
          ureferences j = true) ↔ (i ≤ j ∧ j < i + ((n + 1 : Nat) : Int) ∧
          uregisters j = before ∧ ureferences j = true) := by
        constructor
        · rintro ⟨a, b, c, d⟩
          exact ⟨by omega, by omega, c, d⟩
        · rintro ⟨a, b, c, d⟩
          exact ⟨by omega, by omega, c, d⟩
      by_cases hc : i ≤ j ∧ j < i + ((n + 1 : Nat) : Int) ∧ uregisters j = before ∧
          ureferences j = true
      · rw [if_pos (hiff.mpr hc), if_pos hc]
      · rw [if_neg (fun h => hc (hiff.mp h)), if_neg hc]

theorem hasrefsLoop_of_alias (uregisters : Int → Nat) (index : Int) (n : Nat) :
    ∀ (i j : Int), i ≤ j → j < i + n → j ≠ index → uregisters j = uregisters index →
      hasrefsLoop uregisters index n i = true := by
  induction n with
  | zero =>
    intro i j h1 h2 _ _
    omega
  | succ n ih =>
    intro i j h1 h2 hne heq
    rw [hasrefsLoop]
    by_cases hji : j = i
    · subst hji
      rw [if_neg hne, if_pos heq]
    · have hrec : hasrefsLoop uregisters index n (i + 1) = true :=
        ih (i + 1) j (by omega) (by omega) hne heq
      split
      · exact hrec
      · split
        · rfl
        · exact hrec

@[simp]
theorem deleteObject_uregisters (c : CPU) (p : Nat) :
    (deleteObject c p).uregisters = c.uregisters := by
  unfold deleteObject
  split <;> rfl

@[simp]
theorem deleteObject_ureferences (c : CPU) (p : Nat) :
    (deleteObject c p).ureferences = c.ureferences := by
  unfold deleteObject
  split <;> rfl

@[simp]
theorem deleteObject_uregisters_size (c : CPU) (p : Nat) :
    (deleteObject c p).uregisters_size = c.uregisters_size := by
  unfold deleteObject
  split <;> rfl

@[simp]
theorem copyvalue_uregisters (c : CPU) (a b : Nat) :
    (copyvalue c a b).uregisters = c.uregisters := by
  unfold copyvalue
  split <;> rfl

@[simp]
theorem copyvalue_ureferences (c : CPU) (a b : Nat) :
    (copyvalue c a b).ureferences = c.ureferences := by
  unfold copyvalue
  split <;> rfl

@[simp]
theorem copyvalue_destroyed (c : CPU) (a b : Nat) :
    (copyvalue c a b).destroyed = c.destroyed := by
  unfold copyvalue
  split <;> rfl

/-- What `place` does to a slot that is not flagged as a reference. -/
theorem place_of_not_reference (c : CPU) (i : Int) (obj : Nat)
    (hhi : i < c.uregisters_size) (hnr : c.ureferences i = false) :
    (place c i obj).1 = .ok () ∧
    (place c i obj).2.ureferences = c.ureferences ∧
    (place c i obj).2.uregisters =
      if hasrefs c i = true ∧ c.uregisters i ≠ 0 then
        updaterefsLoop (c.uregisters i) obj c.ureferences c.uregisters_size.toNat 0
          (Function.update c.uregisters i obj)
      else Function.update c.uregisters i obj := by
  have hge : ¬ i ≥ c.uregisters_size := not_le.mpr hhi
  unfold place
  rw [if_neg hge]
  by_cases h0 : c.uregisters i = 0
  · simp [h0, hnr, hasrefs]
  · by_cases hr : hasrefs c i = true
    · simp [h0, hnr, hr, hasrefs, updaterefs] at *
      simp [hr, h0]
    · simp [h0, hnr, hr, hasrefs, updaterefs] at *
      simp [hr]

theorem fetch_of_nonnull (c : CPU) (i : Int) (hhi : i < c.uregisters_size)
    (hne : c.uregisters i ≠ 0) : fetch c i = (.ok (c.uregisters i), c) := by
  have hge : ¬ i ≥ c.uregisters_size := not_le.mpr hhi
  unfold fetch
  rw [if_neg hge]
  simp [hne]

/-- What `place` does to a non-empty slot that is flagged as a reference. -/
theorem place_of_reference (c : CPU) (i : Int) (obj : Nat) (hhi : i < c.uregisters_size)
    (hne : c.uregisters i ≠ 0) (hr : c.ureferences i = true) :
    place c i obj =
      (.ok (), deleteObject
        (if typeOf c (c.uregisters i) = some "Integer" then copyvalue c (c.uregisters i) obj
         else if typeOf c (c.uregisters i) = some "Byte" then copyvalue c (c.uregisters i) obj
         else c) obj) := by
  have hge : ¬ i ≥ c.uregisters_size := not_le.mpr hhi
  unfold place
  rw [if_neg hge]
  simp only [hr, Bool.true_eq_false, and_false, if_false, if_true]
  rw [fetch_of_nonnull c i hhi hne]

theorem copyvalue_isSome (c : CPU) (a b p : Nat) :
    ((copyvalue c a b).objects p).isSome = (c.objects p).isSome := by
  unfold copyvalue
  split
  · rename_i oa ob ha hb
    by_cases hp : p = a
    · subst hp
      simp [ha]
    · simp [Function.update_noteq hp]
  · rfl

theorem deleteObject_objects_of_ne (c : CPU) (obj p : Nat) (hp : p ≠ obj) :
    (deleteObject c obj).objects p = c.objects p := by
  unfold deleteObject
  split
  · rfl
  · exact Function.update_noteq hp _ _

theorem deleteObject_destroyed (c : CPU) (obj : Nat) :
    (deleteObject c obj).destroyed = if obj = 0 then c.destroyed else c.destroyed ++ [obj] := by
  unfold deleteObject
  split <;> rfl

/-! ## Register access: the claims -/

/-- C1: for an in-bounds slot `i` that is not flagged as a reference, `place i obj`
succeeds; afterwards slot `i` holds `obj`, every in-bounds slot flagged as a
reference that held the same non-null address as slot `i` holds `obj`, every
other slot holds the address it held, and every reference flag is unchanged. -/
theorem place_nonreference_slot (c : CPU) (i : Int) (obj : Nat)
    (hlo : 0 ≤ i) (hhi : i < c.uregisters_size) (hnr : c.ureferences i = false) :
    (place c i obj).1 = .ok () ∧
    (place c i obj).2.uregisters i = obj ∧
    (∀ j, 0 ≤ j → j < c.uregisters_size → c.ureferences j = true →
      c.uregisters j = c.uregisters i → c.uregisters i ≠ 0 →
      (place c i obj).2.uregisters j = obj) ∧
    (∀ j, j ≠ i →
      ¬ (0 ≤ j ∧ j < c.uregisters_size ∧ c.ureferences j = true ∧
          c.uregisters j = c.uregisters i ∧ c.uregisters i ≠ 0) →
      (place c i obj).2.uregisters j = c.uregisters j) ∧
    (∀ j, (place c i obj).2.ureferences j = c.ureferences j) := by
  obtain ⟨hok, hrefs, hregs⟩ := place_of_not_reference c i obj hhi hnr
  have hnri : ¬ c.ureferences i = true := by simp [hnr]
  have hsize : ((c.uregisters_size.toNat : Nat) : Int) = c.uregisters_size :=
    Int.toNat_of_nonneg (by omega)
  refine ⟨hok, ?_, ?_, ?_, ?_⟩
  · rw [hregs]
    split
    · rw [updaterefsLoop_apply, if_neg (fun h => hnri h.2.2.2), Function.update_same]
    · exact Function.update_same _ _ _
  · intro j hj0 hjN hjr hjeq hne
    have hji : j ≠ i := by
      rintro rfl
      exact hnri hjr
    have hhas : hasrefs c i = true :=
      hasrefsLoop_of_alias c.uregisters i _ 0 j hj0 (by omega) hji hjeq
    rw [hregs, if_pos ⟨hhas, hne⟩, updaterefsLoop_apply]
    have hcond : (0 : Int) ≤ j ∧ j < 0 + ((c.uregisters_size.toNat : Nat) : Int) ∧
        Function.update c.uregisters i obj j = c.uregisters i ∧ c.ureferences j = true :=
      ⟨hj0, by omega, by rw [Function.update_noteq hji]; exact hjeq, hjr⟩
    rw [if_pos hcond]
  · intro j hji hnot
    rw [hregs]
    split
    · rename_i hh
      rw [updaterefsLoop_apply, Function.update_noteq hji]
      have hcond : ¬ ((0 : Int) ≤ j ∧ j < 0 + ((c.uregisters_size.toNat : Nat) : Int) ∧
          c.uregisters j = c.uregisters i ∧ c.ureferences j = true) := by
        rintro ⟨a, b, e, r⟩
        exact hnot ⟨a, by omega, r, e, hh.2⟩
      rw [if_neg hcond]
    · exact Function.update_noteq hji _ _
  · intro j
    rw [hrefs]

/-- Witness for C1: placing address 6 on register 0 of `aliasedCPU`. -/
theorem place_nonreference_slot_witness :
    (place aliasedCPU 0 6).1 = .ok () ∧ (place aliasedCPU 0 6).2.uregisters 0 = 6 ∧
    (place aliasedCPU 0 6).2.uregisters 1 = 6 := by
  have h := place_nonreference_slot aliasedCPU 0 6 (by decide) (by decide) (by decide)
  exact ⟨h.1, h.2.1, h.2.2.1 1 (by decide) (by decide) (by decide) (by decide) (by decide)⟩

/-- C5: for an index `i` at or past the size of the register set, `place i obj`
throws the out-of-bounds write error and leaves the whole state as it was: no
address, no reference flag and no object changes. -/
theorem place_out_of_bounds (c : CPU) (i : Int) (obj : Nat) (h : c.uregisters_size ≤ i) :
    place c i obj = (.error (.cstr "register access out of bounds: write"), c) := by
  unfold place
  rw [if_pos h]

/-- Witness for C5: index 2 on a set of two registers. -/
theorem place_out_of_bounds_witness :
    place emptyCPU 2 6 = (.error (.cstr "register access out of bounds: write"), emptyCPU) :=
  place_out_of_bounds emptyCPU 2 6 (by decide)

/-- C6: for an in-bounds index `i`, `fetch i` changes nothing, throws the
null-register-read error exactly when slot `i` is empty, and otherwise returns
the address held in slot `i`. -/
theorem fetch_in_bounds (c : CPU) (i : Int) (hhi : i < c.uregisters_size) :
    (fetch c i).2 = c ∧
    ((fetch c i).1 = .error (.cstr ("read from null register: " ++ toString i)) ↔
      c.uregisters i = 0) ∧
    (c.uregisters i ≠ 0 → (fetch c i).1 = .ok (c.uregisters i)) := by
  have hge : ¬ i ≥ c.uregisters_size := not_le.mpr hhi
  unfold fetch
  rw [if_neg hge]
  by_cases h0 : c.uregisters i = 0
  · simp [h0]
  · simp [h0]

/-- Witness for C6: register 0 of `aliasedCPU` holds address 5. -/
theorem fetch_in_bounds_witness :
    (fetch aliasedCPU 0).2 = aliasedCPU ∧ (fetch aliasedCPU 0).1 = .ok 5 :=
  ⟨(fetch_in_bounds aliasedCPU 0 (by decide)).1,
    (fetch_in_bounds aliasedCPU 0 (by decide)).2.2 (by decide)⟩

/-- C3, as stated, fails when the incoming object is the referent itself: on
`aliasedCPU` register 1 is an in-bounds, non-empty reference to the live object
at address 5, and `place 1 5` destroys that object. -/
theorem place_reference_destroys_aliased_referent :
    (0 : Int) ≤ 1 ∧ (1 : Int) < aliasedCPU.uregisters_size ∧
    aliasedCPU.uregisters 1 = 5 ∧ aliasedCPU.ureferences 1 = true ∧
    (aliasedCPU.objects 5).isSome = true ∧
    (place aliasedCPU 1 5).1 = .ok () ∧
    ((place aliasedCPU 1 5).2.objects 5).isSome = false := by
  decide

/-- C3, amended: for an in-bounds, non-empty slot `i` flagged as a reference and
an object `obj` other than the referent held in slot `i`, `place i obj`
succeeds, changes the address held by no slot and no reference flag, leaves the
referent alive, and destroys the incoming `obj` and nothing else. -/
theorem place_reference_slot (c : CPU) (i : Int) (obj : Nat)
    (hhi : i < c.uregisters_size) (hne : c.uregisters i ≠ 0)
    (hr : c.ureferences i = true) (hobj : obj ≠ c.uregisters i) :
    (place c i obj).1 = .ok () ∧
    (∀ j, (place c i obj).2.uregisters j = c.uregisters j) ∧
    (∀ j, (place c i obj).2.ureferences j = c.ureferences j) ∧
    ((place c i obj).2.objects (c.uregisters i)).isSome = (c.objects (c.uregisters i)).isSome ∧
    (∀ p, p ≠ obj → ((place c i obj).2.objects p).isSome = (c.objects p).isSome) ∧
    (place c i obj).2.destroyed = if obj = 0 then c.destroyed else c.destroyed ++ [obj] := by
  rw [place_of_reference c i obj hhi hne hr]
  have hlive : ∀ p, p ≠ obj →
      ((deleteObject
        (if typeOf c (c.uregisters i) = some "Integer" then copyvalue c (c.uregisters i) obj
         else if typeOf c (c.uregisters i) = some "Byte" then copyvalue c (c.uregisters i) obj
         else c) obj).objects p).isSome = (c.objects p).isSome := by
    intro p hp
    rw [deleteObject_objects_of_ne _ _ _ hp]
    split
    · exact copyvalue_isSome _ _ _ _
    · split
      · exact copyvalue_isSome _ _ _ _
      · rfl
  refine ⟨rfl, ?_, ?_, hlive _ (Ne.symm hobj), hlive, ?_⟩
  · intro j
    simp only [deleteObject_uregisters]
    split_ifs <;> simp
  · intro j
    simp only [deleteObject_ureferences]
    split_ifs <;> simp
  · simp only [deleteObject_destroyed]
    split_ifs <;> simp

/-- Witness for C3 amended: placing the Integer at address 6 on the reference
register 1 of `aliasedCPU`. -/
theorem place_reference_slot_witness :
    (place aliasedCPU 1 6).1 = .ok () ∧
    ((place aliasedCPU 1 6).2.objects (aliasedCPU.uregisters 1)).isSome =
      (aliasedCPU.objects (aliasedCPU.uregisters 1)).isSome ∧
    (place aliasedCPU 1 6).2.destroyed = if 6 = 0 then aliasedCPU.destroyed
      else aliasedCPU.destroyed ++ [6] := by
  have h := place_reference_slot aliasedCPU 1 6 (by decide) (by decide) (by decide) (by decide)
  exact ⟨h.1, h.2.2.2.1, h.2.2.2.2.2⟩

/-- A write through a reference to an Integer or a Byte does reach the referent:
when the referent and the incoming object are distinct live objects of that
class, the referent carries the incoming value afterwards. -/
theorem place_reference_copies_integer_or_byte (c : CPU) (i : Int) (obj : Nat) (T : String)
    (v w : Payload) (hhi : i < c.uregisters_size) (hne : c.uregisters i ≠ 0)
    (hr : c.ureferences i = true) (hT : T = "Integer" ∨ T = "Byte")
    (href : c.objects (c.uregisters i) = some ⟨T, v⟩) (hobj : c.objects obj = some ⟨T, w⟩)
    (hdist : obj ≠ c.uregisters i) :
    (place c i obj).2.objects (c.uregisters i) = some ⟨T, w⟩ := by
  rw [place_of_reference c i obj hhi hne hr]
  have hcopy : (copyvalue c (c.uregisters i) obj).objects (c.uregisters i) = some ⟨T, w⟩ := by
    unfold copyvalue
    rw [href, hobj]
    simp
  simp only [deleteObject_objects_of_ne _ _ _ (Ne.symm hdist)]
  rcases hT with hT | hT
  · subst hT
    simp [typeOf, href, hcopy]
  · subst hT
    simp [typeOf, href, hcopy]

/-- C2 fails for a String: on `stringCPU` register 1 is an in-bounds reference to
the String "a" at address 10, made from register 0; `place 1 11`, where address 11
holds the String "b", succeeds, leaves the referent carrying "a", destroys the
incoming object, and reading register 0 still yields the object carrying "a". -/
theorem place_reference_drops_string_value :
    (0 : Int) ≤ 1 ∧ (1 : Int) < stringCPU.uregisters_size ∧
    stringCPU.ureferences 1 = true ∧ stringCPU.uregisters 1 = 10 ∧
    stringCPU.objects 10 = some ⟨"String", .str "a"⟩ ∧
    stringCPU.objects 11 = some ⟨"String", .str "b"⟩ ∧
    (place stringCPU 1 11).1 = .ok () ∧
    (place stringCPU 1 11).2.objects 10 = some ⟨"String", .str "a"⟩ ∧
    (place stringCPU 1 11).2.objects 11 = none ∧
    (fetch (place stringCPU 1 11).2 0).1 = .ok 10 := by
  decide

/-- A negative index passes the guard of `fetch`: whatever the cell before the
array holds, the out-of-bounds error is not what comes back. -/
theorem fetch_negative_index_no_bounds_error (c : CPU) (i : Int) (hneg : i < 0)
    (hsize : 0 ≤ c.uregisters_size) :
    (fetch c i).1 ≠ .error (.cstr "register access out of bounds: read") ∧
    (fetch c i).1 =
      if c.uregisters i = 0 then .error (.cstr ("read from null register: " ++ toString i))
      else .ok (c.uregisters i) := by
  have hge : ¬ i ≥ c.uregisters_size := by omega
  unfold fetch
  rw [if_neg hge]
  by_cases h0 : c.uregisters i = 0
  · simp only [h0, if_true]
    refine ⟨?_, trivial⟩
    intro h
    have h2 := congrArg (fun t => match t with
      | Except.error (Thrown.cstr e) => e.data.take 3
      | _ => []) h
    simp at h2
  · simp [h0]

/-- C4 fails for a negative index: on a set of two registers `fetch (-1)` does
not throw the out-of-bounds error; it reads the cell before the array and, that
cell being null here, reports a read from a null register. -/
theorem fetch_negative_index_reads_memory :
    emptyCPU.uregisters_size = 2 ∧
    (fetch emptyCPU (-1)).1 ≠ .error (.cstr "register access out of bounds: read") ∧
    (fetch emptyCPU (-1)).1 = .error (.cstr "read from null register: -1") := by
  decide

/-! ## The tick: the claims -/

theorem dispatch_ok_decodes (h : Handlers) (c c1 : CPU) (a addr : Int)
    (hd : dispatch h c a = (.ok addr, c1)) : OPCODE.ofByte (c.memory a) ≠ none := by
  intro hnone
  unfold dispatch at hd
  rw [hnone] at hd
  simp at hd

theorem OP_NAMES_at_eq_none (b : Nat) : OP_NAMES_at b = none ↔ OPCODE.ofByte b = none := by
  unfold OP_NAMES_at
  cases OPCODE.ofByte b <;> simp

theorem dispatch_instruction_counter (h : Handlers)
    (hpres : ∀ op s a, (h op s a).2.instruction_counter = s.instruction_counter)
    (c : CPU) (a : Int) : (dispatch h c a).2.instruction_counter = c.instruction_counter := by
  unfold dispatch
  split <;> first | exact hpres _ _ _ | rfl

/-- What `tick` does once `dispatch` has returned an address. -/
theorem tick_of_dispatch_ok (h : Handlers) (c c1 : CPU) (addr : Int)
    (hd : dispatch h (counted c) c.instruction_pointer = (.ok addr, c1)) :
    tick h c =
      if c1.frames.length = 0 then (.ok 0, { c1 with instruction_pointer := addr })
      else if addr ≥ c1.bytecode + c1.bytecode_size then
        (.ok 0, { c1 with instruction_pointer := addr, return_code := 1,
                          return_exception := "InvalidBytecodeAddress",
                          return_message := "instruction address out of bounds" })
      else if addr = c.instruction_pointer ∧ OPCODE.ofByte (c1.memory addr) ≠ some .END then
        match OP_NAMES_at (c1.memory addr) with
        | none => (.error .out_of_range,
            { c1 with instruction_pointer := addr, return_code := 2,
                      return_exception := "InstructionUnchanged" })
        | some name => (.ok 0,
            { c1 with instruction_pointer := addr, return_code := 2,
                      return_exception := "InstructionUnchanged",
                      return_message := unchangedMessage
                        { c1 with instruction_pointer := addr, return_code := 2,
                                  return_exception := "InstructionUnchanged" } name })
      else (.ok addr, { c1 with instruction_pointer := addr }) := by
  have hdec := dispatch_ok_decodes h (counted c) c1 c.instruction_pointer addr hd
  have hguard : ¬ (c.debug = true ∧ OP_NAMES_at (c.memory c.instruction_pointer) = none) := by
    rintro ⟨-, hn⟩
    exact hdec ((OP_NAMES_at_eq_none _).mp hn)
  unfold tick
  simp only []
  rw [show (counted c).debug = c.debug from rfl, show (counted c).memory = c.memory from rfl,
    show (counted c).instruction_pointer = c.instruction_pointer from rfl, if_neg hguard, hd]

/-- The part of C7 that the code does implement: once `dispatch` has returned an
address at or past the end of the image with the frame stack non-empty, `tick`
returns null with return code 1 and exception type "InvalidBytecodeAddress". -/
theorem tick_address_past_end (h : Handlers) (c c1 : CPU) (addr : Int)
    (hd : dispatch h (counted c) c.instruction_pointer = (.ok addr, c1))
    (hfr : c1.frames ≠ []) (hend : c1.bytecode + c1.bytecode_size ≤ addr) :
    (tick h c).1 = .ok 0 ∧ (tick h c).2.return_code = 1 ∧
    (tick h c).2.return_exception = "InvalidBytecodeAddress" := by
  have hlen : ¬ c1.frames.length = 0 := by
    rw [List.length_eq_zero]
    exact hfr
  rw [tick_of_dispatch_ok h c c1 addr hd, if_neg hlen, if_pos hend]
  exact ⟨rfl, rfl, rfl⟩

/-- C7 fails below the image: on `jumpCPU` (image at addresses 100 to 103) the
dispatched `jump` handler returns address 50 with the frame stack non-empty;
`tick` does not terminate with "InvalidBytecodeAddress": it returns 50 as the
next instruction pointer and leaves the return code 0 and the exception type
empty. -/
theorem tick_address_below_image :
    OPCODE.ofByte (jumpCPU.memory jumpCPU.instruction_pointer) = some .JUMP ∧
    (dispatch backwardHandlers (counted jumpCPU) jumpCPU.instruction_pointer).1 = .ok 50 ∧
    (tick backwardHandlers jumpCPU).2.frames.length = 1 ∧
    (tick backwardHandlers jumpCPU).2.instruction_pointer = 50 ∧
    (50 : Int) < (tick backwardHandlers jumpCPU).2.bytecode ∧
    (tick backwardHandlers jumpCPU).1 = .ok 50 ∧
    (tick backwardHandlers jumpCPU).2.return_code = 0 ∧
    (tick backwardHandlers jumpCPU).2.return_exception = "" := by
  decide

/-- C8: once `dispatch` has returned, with the frame stack non-empty, an address
below the end of the image that equals the instruction pointer at the start of
the tick: if the opcode there is not `end`, `tick` returns null with exception
type "InstructionUnchanged" and return code 2; if the opcode there is `end`,
`tick` returns that address as the next instruction pointer and sets no error. -/
theorem tick_instruction_unchanged (h : Handlers) (c c1 : CPU) (addr : Int)
    (hd : dispatch h (counted c) c.instruction_pointer = (.ok addr, c1))
    (hfr : c1.frames ≠ []) (hhi : addr < c1.bytecode + c1.bytecode_size)
    (hsame : addr = c.instruction_pointer) :
    (∀ op, OPCODE.ofByte (c1.memory addr) = some op → op ≠ .END →
      (tick h c).1 = .ok 0 ∧ (tick h c).2.return_exception = "InstructionUnchanged" ∧
      (tick h c).2.return_code = 2 ∧ (tick h c).2.return_code ≠ 0) ∧
    (OPCODE.ofByte (c1.memory addr) = some .END →
      tick h c = (.ok addr, { c1 with instruction_pointer := addr })) := by
  have hlen : ¬ c1.frames.length = 0 := by
    rw [List.length_eq_zero]
    exact hfr
  have hge : ¬ addr ≥ c1.bytecode + c1.bytecode_size := not_le.mpr hhi
  rw [tick_of_dispatch_ok h c c1 addr hd, if_neg hlen, if_neg hge]
  constructor
  · intro op hop hne
    have hcond : addr = c.instruction_pointer ∧ OPCODE.ofByte (c1.memory addr) ≠ some .END := by
      refine ⟨hsame, ?_⟩
      rw [hop]
      intro heq
      exact hne (Option.some.inj heq)
    rw [if_pos hcond]
    have hname : OP_NAMES_at (c1.memory addr) = some (OP_NAMES op) := by
      unfold OP_NAMES_at
      rw [hop]
      rfl
    rw [hname]
    exact ⟨rfl, rfl, rfl, by simp⟩
  · intro hop
    have hcond : ¬ (addr = c.instruction_pointer ∧
        OPCODE.ofByte (c1.memory addr) ≠ some .END) := fun hc => hc.2 hop
    rw [if_neg hcond]

/-- Witness for C8: on `jumpCPU` the `jump` handler returns the address it was
dispatched from. -/
theorem tick_instruction_unchanged_witness :
    (tick stuckHandlers jumpCPU).1 = .ok 0 ∧
    (tick stuckHandlers jumpCPU).2.return_exception = "InstructionUnchanged" ∧
    (tick stuckHandlers jumpCPU).2.return_code = 2 ∧
    (tick stuckHandlers jumpCPU).2.return_code ≠ 0 :=
  (tick_instruction_unchanged stuckHandlers jumpCPU (counted jumpCPU) 100 rfl
    (List.cons_ne_nil _ _) (by decide) rfl).1 .JUMP (by decide) (by decide)

/-- C9: when no instruction handler writes `instruction_counter`, one call of
`tick` increases it by exactly 1 whatever the outcome (an address returned,
null returned after a halt or an error, or an exception passed on), so the
counter after the tick is strictly greater than before. -/
theorem tick_increments_counter (h : Handlers)
    (hpres : ∀ op s a, (h op s a).2.instruction_counter = s.instruction_counter) (c : CPU) :
    (tick h c).2.instruction_counter = c.instruction_counter + 1 ∧
    c.instruction_counter < (tick h c).2.instruction_counter := by
  have hd := dispatch_instruction_counter h hpres (counted c) c.instruction_pointer
  have key : (tick h c).2.instruction_counter = c.instruction_counter + 1 := by
    unfold tick
    simp only []
    split_ifs with hg
    · rfl
    · rcases hres : dispatch h (counted c) (counted c).instruction_pointer with ⟨r, c1⟩
      have hc1 : c1.instruction_counter = c.instruction_counter + 1 := by
        have := hd
        rw [show (counted c).instruction_pointer = c.instruction_pointer from rfl] at hres
        rw [hres] at this
        exact this
      cases r with
      | error t =>
        cases t <;> exact hc1
      | ok addr =>
        simp only []
        split_ifs
        · exact hc1
        · exact hc1
        · split <;> exact hc1
        · exact hc1
  exact ⟨key, by omega⟩

/-- Witness for C9: handlers that change nothing, on `jumpCPU`. -/
theorem tick_increments_counter_witness :
    (tick backwardHandlers jumpCPU).2.instruction_counter = jumpCPU.instruction_counter + 1 ∧
    jumpCPU.instruction_counter < (tick backwardHandlers jumpCPU).2.instruction_counter :=
  tick_increments_counter backwardHandlers (fun _ _ _ => rfl) jumpCPU

/-- C10: when the handler dispatched for the opcode at the instruction pointer
throws a string-valued error `e` (a C string or a `std::string`), leaving the
state `c1` in which it had not moved the instruction pointer nor the frame
stack, `tick` returns null and leaves `c1` with return code 1, exception type
"RuntimeException" and message `e`: the instruction pointer and the frame stack
are those of the start of the tick. -/
theorem tick_string_error (h : Handlers) (c c1 : CPU) (op : OPCODE) (t : Thrown) (e : String)
    (hop : OPCODE.ofByte (c.memory c.instruction_pointer) = some op)
    (hd : dispatch h (counted c) c.instruction_pointer = (.error t, c1))
    (ht : t = .cstr e ∨ t = .str e)
    (hip : c1.instruction_pointer = c.instruction_pointer) (hfr : c1.frames = c.frames) :
    tick h c = (.ok 0, { c1 with return_code := 1, return_message := e,
                                 return_exception := "RuntimeException" }) ∧
    (tick h c).1 = .ok 0 ∧
    (tick h c).2.return_code = 1 ∧
    (tick h c).2.return_exception = "RuntimeException" ∧
    (tick h c).2.return_exception ≠ "" ∧
    (tick h c).2.return_message = e ∧
    (tick h c).2.instruction_pointer = c.instruction_pointer ∧
    (tick h c).2.frames = c.frames := by
  have hguard : ¬ (c.debug = true ∧ OP_NAMES_at (c.memory c.instruction_pointer) = none) := by
    rintro ⟨-, hn⟩
    rw [(OP_NAMES_at_eq_none _).mp hn] at hop
    exact Option.noConfusion hop
  have key : tick h c =
      (.ok 0, { c1 with return_code := 1, return_message := e,
                        return_exception := "RuntimeException" }) := by
    unfold tick
    simp only []
    rw [show (counted c).debug = c.debug from rfl, show (counted c).memory = c.memory from rfl,
      show (counted c).instruction_pointer = c.instruction_pointer from rfl, if_neg hguard, hd]
    rcases ht with ht | ht <;> subst ht <;> rfl
  rw [key]
  exact ⟨rfl, rfl, rfl, rfl, by simp, rfl, hip, hfr⟩

/-- Witness for C10: on `jumpCPU` the `jump` handler throws a C string. -/
theorem tick_string_error_witness :
    (tick raisingHandlers jumpCPU).1 = .ok 0 ∧
    (tick raisingHandlers jumpCPU).2.return_code = 1 ∧
    (tick raisingHandlers jumpCPU).2.return_message = "register access out of bounds: read" ∧
    (tick raisingHandlers jumpCPU).2.frames = jumpCPU.frames := by
  have hw := tick_string_error raisingHandlers jumpCPU (counted jumpCPU) .JUMP
    (.cstr "register access out of bounds: read") "register access out of bounds: read"
    (by decide) rfl (Or.inl rfl) rfl rfl
  exact ⟨hw.2.1, hw.2.2.1, hw.2.2.2.2.2.1, hw.2.2.2.2.2.2.2⟩

/-! ## Unrecognised instructions and halt -/

theorem dispatch_of_not_handled (h : Handlers) (c : CPU) (a : Int)
    (hb : ∀ op, OPCODE.ofByte (c.memory a) = some op → op.handled = false) :
    dispatch h c a =
      (.error (.cstr ("unrecognised instruction (bytecode value: " ++
        toString (readInt c c.bytecode) ++ ")")), c) := by
  unfold dispatch
  split <;> first
    | rfl
    | (rename_i heq
       have hf := hb _ heq
       simp [OPCODE.handled] at hf)

/-- The part of C11 that holds: when the byte at the instruction pointer is
not an opcode handled by `dispatch` and (in debug mode) it does name an
opcode, `tick` returns null and only sets the return code 1, the exception type
and the message on top of the incremented counter. -/
theorem tick_unrecognised_instruction (h : Handlers) (c : CPU)
    (hb : ∀ op, OPCODE.ofByte (c.memory c.instruction_pointer) = some op → op.handled = false)
    (hdbg : c.debug = true → OPCODE.ofByte (c.memory c.instruction_pointer) ≠ none) :
    tick h c =
      (.ok 0, { counted c with
        return_code := 1
        return_message := "unrecognised instruction (bytecode value: " ++
          toString (readInt c c.bytecode) ++ ")"
        return_exception := "RuntimeException" }) := by
  have hguard : ¬ (c.debug = true ∧ OP_NAMES_at (c.memory c.instruction_pointer) = none) := by
    rintro ⟨hd, hn⟩
    exact hdbg hd ((OP_NAMES_at_eq_none _).mp hn)
  unfold tick
  simp only []
  rw [show (counted c).debug = c.debug from rfl, show (counted c).memory = c.memory from rfl,
    show (counted c).instruction_pointer = c.instruction_pointer from rfl, if_neg hguard,
    dispatch_of_not_handled h (counted c) c.instruction_pointer hb,
    show readInt (counted c) (counted c).bytecode = readInt c c.bytecode from rfl]
  generalize "unrecognised instruction (bytecode value: " ++
    toString (readInt c c.bytecode) ++ ")" = message
  rfl

/-- C11 fails in debug mode: on `garbageDebugCPU` the byte at the instruction
pointer is 200, which is no opcode; the lookup of its name for the debug output
throws `std::out_of_range`, which `tick` does not catch: `tick` does not return
null and the return code stays 0. -/
theorem tick_unknown_byte_in_debug_mode :
    OPCODE.ofByte (garbageDebugCPU.memory garbageDebugCPU.instruction_pointer) = none ∧
    garbageDebugCPU.debug = true ∧
    (tick backwardHandlers garbageDebugCPU).1 = .error .out_of_range ∧
    (tick backwardHandlers garbageDebugCPU).1 ≠ .ok 0 ∧
    (tick backwardHandlers garbageDebugCPU).2.return_code = 0 := by
  decide

/-- C12: when the opcode at the instruction pointer is `halt`, `tick` returns
null and leaves the state as it was but for `instruction_counter`, which is
one more: the instruction pointer, the return code, exception type and message,
the frame stack and the registers are unchanged. -/
theorem tick_halt (h : Handlers) (c : CPU)
    (hop : OPCODE.ofByte (c.memory c.instruction_pointer) = some .HALT) :
    tick h c = (.ok 0, counted c) ∧
    (tick h c).2.instruction_counter = c.instruction_counter + 1 ∧
    (tick h c).2.instruction_pointer = c.instruction_pointer ∧
    (tick h c).2.return_code = c.return_code ∧
    (tick h c).2.return_exception = c.return_exception ∧
    (tick h c).2.return_message = c.return_message ∧
    (tick h c).2.frames = c.frames ∧
    (tick h c).2.uregisters = c.uregisters ∧
    (tick h c).2.ureferences = c.ureferences ∧
    (tick h c).2.uregset = c.uregset ∧
    (tick h c).2.objects = c.objects := by
  have hguard : ¬ (c.debug = true ∧ OP_NAMES_at (c.memory c.instruction_pointer) = none) := by
    rintro ⟨-, hn⟩
    rw [(OP_NAMES_at_eq_none _).mp hn] at hop
    exact Option.noConfusion hop
  have hd : dispatch h (counted c) c.instruction_pointer = (.error .halt, counted c) := by
    unfold dispatch
    rw [show (counted c).memory = c.memory from rfl, hop]
  have key : tick h c = (.ok 0, counted c) := by
    unfold tick
    simp only []
    rw [show (counted c).debug = c.debug from rfl, show (counted c).memory = c.memory from rfl,
      show (counted c).instruction_pointer = c.instruction_pointer from rfl, if_neg hguard, hd]
  rw [key]
  exact ⟨rfl, rfl, rfl, rfl, rfl, rfl, rfl, rfl, rfl, rfl, rfl⟩

/-- Witness for C12: `haltCPU`, whatever the handlers. -/
theorem tick_halt_witness :
    tick backwardHandlers haltCPU = (.ok 0, counted haltCPU) ∧
    (tick backwardHandlers haltCPU).2.instruction_pointer = haltCPU.instruction_pointer :=
  ⟨(tick_halt backwardHandlers haltCPU (by decide)).1,
    (tick_halt backwardHandlers haltCPU (by decide)).2.2.1⟩

/-! ## String operands -/

theorem cstring_of_holds (memory : Int → Nat) :
    ∀ (s : List Char) (fuel : Nat) (addr : Int),
      HoldsString memory addr s → s.length < fuel → cstring memory fuel addr = some s := by
  intro s
  induction s with
  | nil =>
    intro fuel addr hs hf
    cases fuel with
    | zero => exact absurd hf (Nat.lt_irrefl 0)
    | succ n =>
      have h0 : memory addr = 0 := hs
      rw [cstring, if_pos h0]
  | cons ch rest ih =>
    intro fuel addr hs hf
    cases fuel with
    | zero => exact absurd hf (Nat.not_lt_zero _)
    | succ n =>
      obtain ⟨hne, hch, hrest⟩ := hs
      have hlen : rest.length < n := by
        simp only [List.length_cons] at hf
        omega
      rw [cstring, if_neg hne, ih n (addr + 1) hrest hlen, hch]
      rfl

theorem readString_of_holds (c : CPU) (s : String) (fuel : Nat) (addr : Int)
    (hs : HoldsString c.memory addr s.data) (hf : s.length < fuel) :
    readString c fuel addr = some s := by
  unfold readString
  rw [cstring_of_holds c.memory s.data fuel addr hs hf]
  rfl

/-! ## try and catch -/

theorem resolveBlock_of_local (c : CPU) (name : String) (offset : Nat)
    (hblk : c.block_addresses name = some offset) :
    resolveBlock c name = (.ok (c.bytecode + offset), { c with jump_base := c.bytecode }) := by
  unfold resolveBlock
  rw [hblk]

theorem resolveBlock_of_linked (c : CPU) (name module_name : String) (address base : Int)
    (n : Nat) (hblk : c.block_addresses name = none)
    (hlink : c.linked_blocks name = some (module_name, address))
    (hmod : c.linked_modules module_name = some (n, base)) :
    resolveBlock c name = (.ok address, { c with jump_base := base }) := by
  unfold resolveBlock
  rw [hblk]
  simp only [hlink, hmod]

/-- What `vmtry` does with the name of a local block. -/
theorem vmtry_of_local_block (fuel : Nat) (c : CPU) (addr : Int) (name : String)
    (frame : TryFrame) (top : Frame) (offset : Nat)
    (hs : HoldsString c.memory addr name.data) (hf : name.length < fuel)
    (hpend : c.try_frame_new = some frame) (htop : c.frames.getLast? = some top)
    (hblk : c.block_addresses name = some offset) :
    vmtry fuel c addr =
      some (.ok (c.bytecode + offset), { c with
        jump_base := c.bytecode
        tryframes := c.tryframes ++ [{ frame with
          return_address := addr + (name.length : Nat)
          associated_frame := some top
          block_name := name }]
        try_frame_new := none }) := by
  unfold vmtry
  rw [readString_of_holds c name fuel addr hs hf]
  simp only [hblk, Option.isSome_some, Bool.true_or, Bool.true_eq_false, if_false]
  rw [resolveBlock_of_local c name offset hblk]
  simp only [hpend, htop]

/-- What `vmcatch` does once the block name has been resolved. -/
theorem vmcatch_of_resolved (fuel : Nat) (c c1 : CPU) (addr address : Int) (T B : String)
    (frame : TryFrame)
    (hT : HoldsString c.memory addr T.data)
    (hB : HoldsString c.memory (addr + (T.length + 1 : Nat)) B.data)
    (hfT : T.length < fuel) (hfB : B.length < fuel)
    (hfound : ((c.block_addresses B).isSome || (c.linked_blocks B).isSome) = true)
    (hres : resolveBlock c B = (.ok address, c1)) (hpend : c1.try_frame_new = some frame) :
    vmcatch fuel c addr =
      some (.ok (addr + (T.length + 1 : Nat) + (B.length + 1 : Nat)), { c1 with
        try_frame_new := some { frame with
          catchers := Function.update frame.catchers T (some ⟨T, B, address⟩) } }) := by
  unfold vmcatch
  rw [readString_of_holds c T fuel addr hT hfT]
  simp only []
  rw [readString_of_holds c B fuel _ hB hfB]
  simp only [hfound, Bool.true_eq_false, if_false, hres, hpend]

/-- The address `vmtry` records for a local block, in general: the operand
address plus the length of the name, which is the address of the zero byte that
ends the name. -/
theorem vmtry_return_address (fuel : Nat) (c : CPU) (addr : Int) (name : String)
    (frame : TryFrame) (top : Frame) (offset : Nat)
    (hs : HoldsString c.memory addr name.data) (hf : name.length < fuel)
    (hpend : c.try_frame_new = some frame) (htop : c.frames.getLast? = some top)
    (hblk : c.block_addresses name = some offset) :
    (vmtry fuel c addr).map (fun o => o.2.tryframes.getLast?.map TryFrame.return_address) =
      some (some (addr + (name.length : Nat))) := by
  rw [vmtry_of_local_block fuel c addr name frame top offset hs hf hpend htop hblk]
  simp

/-- C13 fails by one byte: on `tryCPU` the instruction `try "g"` has its operand
at address 107, the zero byte that ends the name at 108 and the next
instruction at 109; `vmtry` succeeds, jumping to block "g", and the try frame it
commits records the return address 108, the address of the zero byte, not 109. -/
theorem vmtry_return_address_is_terminator :
    tryCPU.memory 106 = 62 ∧ tryCPU.memory 107 = 103 ∧ tryCPU.memory 108 = 0 ∧
    (103 : Nat) = ('g').toNat ∧
    (vmtry 8 tryCPU 107).map (fun o => o.1) = some (.ok 118) ∧
    (vmtry 8 tryCPU 107).map (fun o => o.2.tryframes.map TryFrame.return_address) =
      some [108] ∧
    (108 : Int) ≠ 107 + 1 + 1 := by
  decide

/-- C14: with a try frame pending, the frame stack non-empty and the operand
naming a block of `block_addresses`, `vmtry` returns the address
`bytecode + block_addresses[name]`; afterwards the try-frame stack is the old
one with the formerly pending try frame pushed on top, its catchers untouched,
its `associated_frame` the top frame and its `block_name` the operand; no try
frame is pending and the frame stack is unchanged. -/
theorem vmtry_commits_pending_frame (fuel : Nat) (c : CPU) (addr : Int) (name : String)
    (frame : TryFrame) (offset : Nat)
    (hs : HoldsString c.memory addr name.data) (hf : name.length < fuel)
    (hpend : c.try_frame_new = some frame) (hfr : c.frames ≠ [])
    (hblk : c.block_addresses name = some offset) :
    ∃ c1 pushed, vmtry fuel c addr = some (.ok (c.bytecode + offset), c1) ∧
      c1.tryframes = c.tryframes ++ [pushed] ∧
      pushed.catchers = frame.catchers ∧
      pushed.associated_frame = some (c.frames.getLast hfr) ∧
      pushed.block_name = name ∧
      c1.try_frame_new = none ∧
      c1.frames = c.frames := by
  have htop : c.frames.getLast? = some (c.frames.getLast hfr) := List.getLast?_eq_getLast _ hfr
  exact ⟨_, _, vmtry_of_local_block fuel c addr name frame _ offset hs hf hpend htop hblk,
    rfl, rfl, rfl, rfl, rfl, rfl⟩

/-- Witness for C14: `try "g"` on `tryCPU`. -/
theorem vmtry_commits_pending_frame_witness :
    ∃ c1 pushed, vmtry 8 tryCPU 107 = some (.ok (tryCPU.bytecode + 18), c1) ∧
      c1.tryframes = tryCPU.tryframes ++ [pushed] ∧
      pushed.catchers = ({} : TryFrame).catchers ∧
      pushed.associated_frame = some (tryCPU.frames.getLast (List.cons_ne_nil _ _)) ∧
      pushed.block_name = "g" ∧
      c1.try_frame_new = none ∧
      c1.frames = tryCPU.frames :=
  vmtry_commits_pending_frame 8 tryCPU 107 "g" {} 18
    (by decide) (by decide) rfl (List.cons_ne_nil _ _) (by decide)

/-- C15: `tryframe` throws exactly when a try frame is pending, and then leaves
the whole state, the pending try frame and the try-frame stack included, as it
was; when none is pending it returns the address it was given, makes a new try
frame the pending one and leaves the try-frame stack as it was. -/
theorem tryframe_spec (c : CPU) (addr : Int) :
    ((∃ e, (tryframe c addr).1 = .error e) ↔ c.try_frame_new ≠ none) ∧
    (c.try_frame_new ≠ none → (tryframe c addr).2 = c) ∧
    (c.try_frame_new = none →
      (tryframe c addr).1 = .ok addr ∧
      (tryframe c addr).2.try_frame_new = some {} ∧
      (tryframe c addr).2.tryframes = c.tryframes) := by
  unfold tryframe
  cases hp : c.try_frame_new with
  | none => simp
  | some frame => simp

/-- Witness for C15: a try frame is pending on `tryCPU` and none on
`enteredCPU`. -/
theorem tryframe_spec_witness :
    (tryframe tryCPU 101).2 = tryCPU ∧
    (tryframe enteredCPU 101).1 = .ok 101 ∧
    (tryframe enteredCPU 101).2.tryframes = enteredCPU.tryframes :=
  ⟨(tryframe_spec tryCPU 101).2.1 (fun h => Option.noConfusion h),
    ((tryframe_spec enteredCPU 101).2.2 rfl).1,
    ((tryframe_spec enteredCPU 101).2.2 rfl).2.2⟩

/-- C16: with a try frame pending and the operands `T` and `B` of `catch`, `B`
naming a local block (whether or not a linked block has the same name) or else
a linked block of a linked module, `vmcatch` returns the operand address
advanced by `len T + 1 + len B + 1`; afterwards the pending try frame binds `T`
to the catcher of type `T`, block name `B` and the resolved address (which is
`bytecode + block_addresses[B]` for a local block), binds every other type name
as before, and is otherwise the same. -/
theorem vmcatch_registers_catcher (fuel : Nat) (c : CPU) (addr address : Int) (T B : String)
    (frame : TryFrame)
    (hT : HoldsString c.memory addr T.data)
    (hB : HoldsString c.memory (addr + (T.length + 1 : Nat)) B.data)
    (hfT : T.length < fuel) (hfB : B.length < fuel)
    (hpend : c.try_frame_new = some frame)
    (hdef : (∃ offset, c.block_addresses B = some offset ∧ address = c.bytecode + offset) ∨
      (c.block_addresses B = none ∧ ∃ module_name n base,
        c.linked_blocks B = some (module_name, address) ∧
        c.linked_modules module_name = some (n, base))) :
    ∃ c1 registered,
      vmcatch fuel c addr = some (.ok (addr + (T.length + 1 + B.length + 1 : Nat)), c1) ∧
      c1.try_frame_new = some registered ∧
      registered.catchers T = some ⟨T, B, address⟩ ∧
      (∀ T1, T1 ≠ T → registered.catchers T1 = frame.catchers T1) ∧
      registered.return_address = frame.return_address ∧
      registered.associated_frame = frame.associated_frame ∧
      registered.block_name = frame.block_name ∧
      c1.tryframes = c.tryframes := by
  have haddr : addr + ((T.length + 1 + B.length + 1 : Nat) : Int) =
      addr + ((T.length + 1 : Nat) : Int) + ((B.length + 1 : Nat) : Int) := by
    push_cast
    ring
  rw [haddr]
  rcases hdef with ⟨offset, hblk, haddress⟩ | ⟨hblk, module_name, n, base, hlink, hmod⟩
  · have hfound : ((c.block_addresses B).isSome || (c.linked_blocks B).isSome) = true := by
      simp [hblk]
    have hres := resolveBlock_of_local c B offset hblk
    rw [← haddress] at hres
    refine ⟨_, _, vmcatch_of_resolved fuel c _ addr address T B frame hT hB hfT hfB hfound hres
      hpend, rfl, ?_, ?_, rfl, rfl, rfl, rfl⟩
    · exact Function.update_same _ _ _
    · intro T1 hne
      exact Function.update_noteq hne _ _
  · have hfound : ((c.block_addresses B).isSome || (c.linked_blocks B).isSome) = true := by
      simp [hlink]
    have hres := resolveBlock_of_linked c B module_name address base n hblk hlink hmod
    refine ⟨_, _, vmcatch_of_resolved fuel c _ addr address T B frame hT hB hfT hfB hfound hres
      hpend, rfl, ?_, ?_, rfl, rfl, rfl, rfl⟩
    · exact Function.update_same _ _ _
    · intro T1 hne
      exact Function.update_noteq hne _ _

/-- Witness for C16: `catch "E" "h"` on `tryCPU`, block "h" at offset 20. -/
theorem vmcatch_registers_catcher_witness :
    ∃ c1 registered,
      vmcatch 8 tryCPU 102 = some (.ok (102 + (1 + 1 + 1 + 1 : Nat)), c1) ∧
      c1.try_frame_new = some registered ∧
      registered.catchers "E" = some ⟨"E", "h", 120⟩ := by
  obtain ⟨c1, registered, h1, h2, h3, -⟩ :=
    vmcatch_registers_catcher 8 tryCPU 102 120 "E" "h" {}
      (by decide) (by decide) (by decide) (by decide) rfl (Or.inl ⟨20, by decide, by decide⟩)
  exact ⟨c1, registered, h1, h2, h3⟩

/-- C17: for a block name that is in neither `block_addresses` nor
`linked_blocks`, `vmtry` and `vmcatch` both throw, and both leave the whole
state as it was: the pending try frame with its catchers, the try-frame stack
and `jump_base` are unchanged. -/
theorem undefined_block_fails (fuel : Nat) (c : CPU) (B : String) (hfB : B.length < fuel)
    (hlocal : c.block_addresses B = none) (hlinked : c.linked_blocks B = none) :
    (∀ addr, HoldsString c.memory addr B.data →
      vmtry fuel c addr =
        some (.error (.exception_ptr ("try of undefined block: " ++ B)), c)) ∧
    (∀ (addr : Int) (T : String), T.length < fuel → HoldsString c.memory addr T.data →
      HoldsString c.memory (addr + (T.length + 1 : Nat)) B.data →
      vmcatch fuel c addr =
        some (.error (.exception_ptr ("registering undefined handler block: " ++ B)), c)) := by
  constructor
  · intro addr hs
    unfold vmtry
    rw [readString_of_holds c B fuel addr hs hfB]
    simp only [hlocal, hlinked, Option.isSome_none, Bool.or_self, if_true]
  · intro addr T hfT hT hB
    unfold vmcatch
    rw [readString_of_holds c T fuel addr hT hfT]
    simp only []
    rw [readString_of_holds c B fuel _ hB hfB]
    simp only [hlocal, hlinked, Option.isSome_none, Bool.or_self, if_true]

/-- Witness for C17: on `tryCPU` the name "x" is no block; it is the operand of
the `try` at address 110 and the second operand of the `catch` at address 113. -/
theorem undefined_block_fails_witness :
    vmtry 8 tryCPU 111 =
      some (.error (.exception_ptr ("try of undefined block: " ++ "x")), tryCPU) ∧
    vmcatch 8 tryCPU 114 =
      some (.error (.exception_ptr ("registering undefined handler block: " ++ "x")),
        tryCPU) :=
  ⟨(undefined_block_fails 8 tryCPU "x" (by decide) (by decide) (by decide)).1 111 (by decide),
    (undefined_block_fails 8 tryCPU "x" (by decide) (by decide) (by decide)).2 114 "E"
      (by decide) (by decide) (by decide)⟩

/-! ## throw, pull and leave -/

theorem readInt_range (c : CPU) (p : Int) :
    -2147483648 ≤ readInt c p ∧ readInt c p < 2147483648 := by
  unfold readInt
  simp only []
  split <;> omega

theorem toUnsigned_of_nonneg (i : Int) (h0 : 0 ≤ i) (h1 : i < 2147483648) :
    toUnsigned i = i.toNat := by
  unfold toUnsigned
  rw [Int.emod_eq_of_lt h0 (by omega)]

theorem toUnsigned_of_neg (i : Int) (h0 : i < 0) (h1 : -2147483648 ≤ i) :
    2147483648 ≤ toUnsigned i := by
  unfold toUnsigned
  omega

theorem resolveIndex_direct (c : CPU) (index : Int) :
    resolveIndex c false index = (.ok index, c) := by
  unfold resolveIndex
  simp

/-- C18: for `throw` with a direct register operand `r` (flag byte 0) on a
register set of at most 2^31 slots: when `r` is negative, or at or past the
size, or slot `r` is empty, `vmthrow` throws and leaves the whole state,
`thrown` included, as it was; otherwise it returns the operand address advanced
by the flag byte and the integer (1 + 4 bytes), the mask of slot `r` is `KEEP`,
`thrown` is the object held in slot `r`, and nothing else has changed. -/
theorem vmthrow_direct (c : CPU) (addr r : Int) (hdirect : c.memory addr = 0)
    (hr : readInt c (addr + 1) = r) (hsize : c.uregset.size ≤ 2147483648) :
    ((r < 0 ∨ (c.uregset.size : Int) ≤ r ∨ c.uregset.registers r.toNat = 0) →
      (∃ e, (vmthrow c addr).1 = .error e) ∧ (vmthrow c addr).2 = c) ∧
    (0 ≤ r → r < c.uregset.size → c.uregset.registers r.toNat ≠ 0 →
      vmthrow c addr = (.ok (addr + 1 + 4), { c with
        uregset := { c.uregset with masks := Function.update c.uregset.masks r.toNat .KEEP }
        thrown := c.uregset.registers r.toNat }) ∧
      (vmthrow c addr).2.uregset.masks r.toNat = .KEEP ∧
      (vmthrow c addr).2.thrown = c.uregset.registers r.toNat) := by
  have hrange := readInt_range c (addr + 1)
  rw [hr] at hrange
  have hflag : decide (c.memory addr ≠ 0) = false := by simp [hdirect]
  have hsz : c.uregset.size = c.uregset.registerset_size := rfl
  constructor
  · intro hbad
    unfold vmthrow
    simp only [hflag, hr, resolveIndex_direct]
    by_cases hneg : r < 0
    · have hu := toUnsigned_of_neg r hneg hrange.1
      have hge : toUnsigned r ≥ c.uregset.size := by omega
      rw [if_pos hge]
      exact ⟨⟨_, rfl⟩, rfl⟩
    · have hu := toUnsigned_of_nonneg r (by omega) hrange.2
      rw [hu]
      by_cases hge : r.toNat ≥ c.uregset.size
      · rw [if_pos hge]
        exact ⟨⟨_, rfl⟩, rfl⟩
      · rw [if_neg hge]
        have hempty : c.uregset.registers r.toNat = 0 := by
          rcases hbad with h | h | h
          · exact absurd h hneg
          · omega
          · exact h
        have hge2 : ¬ r.toNat ≥ c.uregset.registerset_size := by rw [← hsz]; exact hge
        simp only [RegisterSet.at, if_neg hge2, hempty, if_true]
        exact ⟨⟨_, rfl⟩, trivial⟩
  · intro h0 hlt hne
    have hu := toUnsigned_of_nonneg r h0 hrange.2
    have hge : ¬ r.toNat ≥ c.uregset.size := by omega
    have hge2 : ¬ r.toNat ≥ c.uregset.registerset_size := by rw [← hsz]; exact hge
    have key : vmthrow c addr = (.ok (addr + 1 + 4), { c with
        uregset := { c.uregset with masks := Function.update c.uregset.masks r.toNat .KEEP }
        thrown := c.uregset.registers r.toNat }) := by
      unfold vmthrow
      simp only [hflag, hr, resolveIndex_direct, hu, if_neg hge, RegisterSet.at,
        RegisterSet.setmask, RegisterSet.get, if_neg hge2, if_neg hne]
    rw [key]
    exact ⟨rfl, Function.update_same _ _ _, rfl⟩

/-- Witness for C18: `throw 1` on `operandCPU`, whose slot 1 holds address 7. -/
theorem vmthrow_direct_witness :
    vmthrow operandCPU 200 = (.ok (200 + 1 + 4), { operandCPU with
      uregset := { operandCPU.uregset with
        masks := Function.update operandCPU.uregset.masks (1 : Int).toNat .KEEP }
      thrown := operandCPU.uregset.registers (1 : Int).toNat }) ∧
    (vmthrow operandCPU 200).2.thrown = 7 :=
  ⟨((vmthrow_direct operandCPU 200 1 (by decide) (by decide) (by decide)).2
      (by decide) (by decide) (by decide)).1,
    ((vmthrow_direct operandCPU 200 1 (by decide) (by decide) (by decide)).2
      (by decide) (by decide) (by decide)).2.2⟩

/-- What `pull` with a direct register operand `r` (flag byte 0) does, whatever
`set` is: when no caught object is waiting it throws and leaves the whole state
as it was; otherwise it hands `r` and the caught object to `set` and, when that
returns, `caught` is null and the returned address is the operand address
advanced by 1 + 4 bytes; when `set` throws, the exception is passed on. -/
theorem pull_of_set (set : RegisterSetSet) (c : CPU) (addr r : Int)
    (hdirect : c.memory addr = 0) (hr : readInt c (addr + 1) = r) :
    (c.caught = 0 →
      pull set c addr = (.error (.exception_ptr "no caught object to pull"), c)) ∧
    (c.caught ≠ 0 → ∀ c1, set c r c.caught = (.ok (), c1) →
      pull set c addr = (.ok (addr + 1 + 4), { c1 with caught := 0 })) ∧
    (c.caught ≠ 0 → ∀ e c1, set c r c.caught = (.error e, c1) →
      pull set c addr = (.error e, c1)) := by
  have hflag : decide (c.memory addr ≠ 0) = false := by simp [hdirect]
  refine ⟨?_, ?_, ?_⟩
  · intro h0
    unfold pull
    simp only [hflag, hr, resolveIndex_direct, h0, if_true]
  · intro hne c1 hset
    unfold pull
    simp only [hflag, hr, resolveIndex_direct, if_neg hne, hset]
  · intro hne e c1 hset
    unfold pull
    simp only [hflag, hr, resolveIndex_direct, if_neg hne, hset]

@[simp]
theorem deleteObject_uregset (c : CPU) (p : Nat) :
    (deleteObject c p).uregset = c.uregset := by
  unfold deleteObject
  split <;> rfl

@[simp]
theorem copyvalue_uregset (c : CPU) (a b : Nat) :
    (copyvalue c a b).uregset = c.uregset := by
  unfold copyvalue
  split <;> rfl

/-- What `set` does with an index that is not the index of a slot. -/
theorem set_of_outside (c : CPU) (index : Int) (object : Nat)
    (hout : index < 0 ∨ (c.uregset.size : Int) ≤ index) :
    RegisterSet.set c index object =
      (.error (.exception_ptr "register access out of bounds: write"), c) := by
  have hb : index < 0 ∨ index ≥ (c.uregset.registerset_size : Int) := hout
  unfold RegisterSet.set
  rw [if_pos hb]

/-- What `set` does with a slot that is not a reference: it succeeds and the
slot holds the object afterwards. -/
theorem set_of_owner (c : CPU) (index : Int) (object : Nat)
    (h0 : 0 ≤ index) (hlt : index < (c.uregset.size : Int))
    (hown : c.uregset.references index.toNat = false) :
    ∃ c1, RegisterSet.set c index object = (.ok (), c1) ∧
      c1.uregset.registers index.toNat = object := by
  have hlt1 : index < (c.uregset.registerset_size : Int) := hlt
  have hb : ¬ (index < 0 ∨ index ≥ (c.uregset.registerset_size : Int)) := by omega
  unfold RegisterSet.set
  rw [if_neg hb]
  simp only [hown, Bool.false_eq_true, if_false]
  refine ⟨_, rfl, ?_⟩
  simp [hown]

/-- What `set` does with a slot that is a reference and holds an address: the
value of the object goes into the referent, the object is destroyed, the
register set stays as it was. -/
theorem set_of_reference (c : CPU) (index : Int) (object : Nat)
    (h0 : 0 ≤ index) (hlt : index < (c.uregset.size : Int))
    (href : c.uregset.references index.toNat = true)
    (hheld : c.uregset.registers index.toNat ≠ 0) :
    RegisterSet.set c index object =
      (.ok (), deleteObject (copyvalue c (c.uregset.registers index.toNat) object) object) := by
  have hlt1 : index < (c.uregset.registerset_size : Int) := hlt
  have hb : ¬ (index < 0 ∨ index ≥ (c.uregset.registerset_size : Int)) := by omega
  unfold RegisterSet.set
  rw [if_neg hb, if_pos href, if_neg hheld]

/-- C19, as stated, fails in two ways.  On `outsideOperandCPU` a caught object
is waiting and the operand of `pull` is 5, which is not a register of the
register set of two slots: `pull` fails and the object is still in `caught`.
On `referenceOperandCPU` the operand is register 1, a reference to the Integer
at address 7: `pull` succeeds and `caught` is null, but register 1 holds
address 7 as before, not the caught object at address 9; that object is
destroyed and its value 5 is now the value of the referent. -/
theorem pull_without_register_set_to_caught :
    outsideOperandCPU.memory 200 = 0 ∧ readInt outsideOperandCPU 201 = 5 ∧
    outsideOperandCPU.caught = 9 ∧ outsideOperandCPU.uregset.size = 2 ∧
    (pull RegisterSet.set outsideOperandCPU 200).1 =
      .error (.exception_ptr "register access out of bounds: write") ∧
    (pull RegisterSet.set outsideOperandCPU 200).2.caught = 9 ∧
    referenceOperandCPU.memory 200 = 0 ∧ readInt referenceOperandCPU 201 = 1 ∧
    referenceOperandCPU.caught = 9 ∧
    referenceOperandCPU.uregset.references 1 = true ∧
    (pull RegisterSet.set referenceOperandCPU 200).1 = .ok 205 ∧
    (pull RegisterSet.set referenceOperandCPU 200).2.caught = 0 ∧
    (pull RegisterSet.set referenceOperandCPU 200).2.uregset.registers 1 = 7 ∧
    (pull RegisterSet.set referenceOperandCPU 200).2.objects 9 = none ∧
    (pull RegisterSet.set referenceOperandCPU 200).2.objects 7 = some ⟨"Integer", .int 5⟩ := by
  decide

/-- C19, amended: for `pull` with a direct register operand `r` (flag byte 0),
`set` being the one of section 4.B.  When no caught object is waiting, `pull`
throws and leaves the whole state, every register and `caught` included, as it
was.  Otherwise: when `r` is the index of a slot that is not a reference,
register `r` holds the object that was in `caught`, `caught` is null and the
returned address is the operand address advanced by 1 + 4 bytes; when `r` is
not the index of a slot, `pull` throws and leaves the whole state, `caught`
included, as it was; when slot `r` is a reference that holds an address, the
register set stays as it was, the object that was in `caught` is destroyed and
`caught` is null. -/
theorem pull_moves_caught (c : CPU) (addr r : Int)
    (hdirect : c.memory addr = 0) (hr : readInt c (addr + 1) = r) :
    (c.caught = 0 →
      pull RegisterSet.set c addr =
        (.error (.exception_ptr "no caught object to pull"), c)) ∧
    (c.caught ≠ 0 → 0 ≤ r → r < (c.uregset.size : Int) →
      c.uregset.references r.toNat = false →
      (pull RegisterSet.set c addr).1 = .ok (addr + 1 + 4) ∧
      (pull RegisterSet.set c addr).2.uregset.registers r.toNat = c.caught ∧
      (pull RegisterSet.set c addr).2.caught = 0) ∧
    (c.caught ≠ 0 → (r < 0 ∨ (c.uregset.size : Int) ≤ r) →
      pull RegisterSet.set c addr =
        (.error (.exception_ptr "register access out of bounds: write"), c)) ∧
    (c.caught ≠ 0 → 0 ≤ r → r < (c.uregset.size : Int) →
      c.uregset.references r.toNat = true → c.uregset.registers r.toNat ≠ 0 →
      (pull RegisterSet.set c addr).1 = .ok (addr + 1 + 4) ∧
      (pull RegisterSet.set c addr).2.uregset = c.uregset ∧
      (pull RegisterSet.set c addr).2.caught = 0 ∧
      c.caught ∈ (pull RegisterSet.set c addr).2.destroyed) := by
  have hpull := pull_of_set RegisterSet.set c addr r hdirect hr
  refine ⟨hpull.1, ?_, ?_, ?_⟩
  · intro hne h0 hlt hown
    obtain ⟨c1, hset, hreg⟩ := set_of_owner c r c.caught h0 hlt hown
    rw [hpull.2.1 hne c1 hset]
    exact ⟨rfl, hreg, rfl⟩
  · intro hne hout
    exact hpull.2.2 hne _ c (set_of_outside c r c.caught hout)
  · intro hne h0 hlt href hheld
    rw [hpull.2.1 hne _ (set_of_reference c r c.caught h0 hlt href hheld)]
    refine ⟨rfl, ?_, rfl, ?_⟩
    · show (deleteObject (copyvalue c (c.uregset.registers r.toNat) c.caught) c.caught).uregset =
        c.uregset
      rw [deleteObject_uregset, copyvalue_uregset]
    · show c.caught ∈
        (deleteObject (copyvalue c (c.uregset.registers r.toNat) c.caught) c.caught).destroyed
      rw [deleteObject_destroyed, if_neg hne]
      exact List.mem_append_right _ (List.mem_singleton_self _)

/-- Witness for C19 amended: `pull 1` on `operandCPU`, whose slot 1 is not a
reference; the caught object at address 9 is in register 1 afterwards. -/
theorem pull_moves_caught_witness :
    (pull RegisterSet.set operandCPU 200).1 = .ok (200 + 1 + 4) ∧
    (pull RegisterSet.set operandCPU 200).2.uregset.registers 1 = 9 ∧
    (pull RegisterSet.set operandCPU 200).2.caught = 0 :=
  (pull_moves_caught operandCPU 200 1 (by decide) (by decide)).2.1
    (by decide) (by decide) (by decide) (by decide)

/-- What `leave` does when the try-frame stack is not empty. -/
theorem leave_of_concat (c : CPU) (addr : Int) (rest : List TryFrame) (back : TryFrame)
    (hstack : c.tryframes = rest ++ [back]) :
    leave c addr =
      match c.frames.getLast? with
      | none => (.ok back.return_address, { c with tryframes := rest })
      | some top =>
        if (c.function_addresses top.function_name).isSome = true then
          (.ok back.return_address, { c with tryframes := rest, jump_base := c.bytecode })
        else
          match c.linked_functions top.function_name with
          | none => (.error .out_of_range, { c with tryframes := rest })
          | some (module_name, _) =>
            match c.linked_modules module_name with
            | none => (.error .out_of_range, { c with tryframes := rest })
            | some (_, base) =>
              (.ok back.return_address, { c with tryframes := rest, jump_base := base }) := by
  have hlast : (rest ++ [back]).getLast? = some back := by simp
  have hdrop : (rest ++ [back]).dropLast = rest := by simp
  unfold leave
  simp only [hstack, hlast, hdrop]

/-- C20, as stated, fails on `orphanCPU`: its try-frame stack is not empty, but
the function of its top frame is in neither `function_addresses` nor
`linked_functions`; `leave` fails with the `std::out_of_range` of `map::at`,
and the state is not as it was: the top try frame has been removed. -/
theorem leave_fails_on_unresolved_frame :
    orphanCPU.tryframes.length = 1 ∧
    (orphanCPU.frames.map Frame.function_name) = ["lost"] ∧
    orphanCPU.function_addresses "lost" = none ∧
    orphanCPU.linked_functions "lost" = none ∧
    (leave orphanCPU 119).1 = .error .out_of_range ∧
    (leave orphanCPU 119).2.tryframes.length = 0 := by
  decide

/-- C20, amended: `leave` fails with "bad leave: no block has been entered"
exactly when the try-frame stack is empty, and then leaves the whole state as
it was.  On a stack `rest ++ [back]` it changes nothing but the try-frame stack,
which becomes `rest`, and `jump_base`; the frame stack is as it was.  With no
frame on the frame stack it returns `back.return_address` and `jump_base` is as
it was; with the function of the top frame in `function_addresses` it returns
`back.return_address` and `jump_base` is `bytecode`; with that function a linked
function of a linked module it returns `back.return_address` and `jump_base` is
the base of the module; with that function in neither table, or its module not
linked, it fails with `std::out_of_range` after the top try frame has been
removed. -/
theorem leave_spec (c : CPU) (addr : Int) :
    ((leave c addr).1 = .error (.exception "bad leave: no block has been entered") ↔
      c.tryframes = []) ∧
    (c.tryframes = [] → (leave c addr).2 = c) ∧
    (∀ rest back, c.tryframes = rest ++ [back] →
      (leave c addr).2.tryframes = rest ∧
      (leave c addr).2.frames = c.frames ∧
      (leave c addr).2 = { c with tryframes := rest, jump_base := (leave c addr).2.jump_base } ∧
      (c.frames = [] →
        (leave c addr).1 = .ok back.return_address ∧
        (leave c addr).2.jump_base = c.jump_base) ∧
      (∀ top, c.frames.getLast? = some top →
        ((c.function_addresses top.function_name).isSome = true →
          (leave c addr).1 = .ok back.return_address ∧
          (leave c addr).2.jump_base = c.bytecode) ∧
        ((c.function_addresses top.function_name).isSome = false →
          ∀ module_name a n base,
            c.linked_functions top.function_name = some (module_name, a) →
            c.linked_modules module_name = some (n, base) →
            (leave c addr).1 = .ok back.return_address ∧
            (leave c addr).2.jump_base = base) ∧
        ((c.function_addresses top.function_name).isSome = false →
          (c.linked_functions top.function_name = none ∨
            ∃ module_name a, c.linked_functions top.function_name = some (module_name, a) ∧
              c.linked_modules module_name = none) →
          (leave c addr).1 = .error .out_of_range ∧
          (leave c addr).2.jump_base = c.jump_base))) := by
  have hempty : c.tryframes = [] →
      leave c addr = (.error (.exception "bad leave: no block has been entered"), c) := by
    intro hnil
    unfold leave
    rw [hnil]
    rfl
  have hnonempty : ∀ rest back, c.tryframes = rest ++ [back] →
      (leave c addr).1 ≠ .error (.exception "bad leave: no block has been entered") := by
    intro rest back hstack
    rw [leave_of_concat c addr rest back hstack]
    cases hfr : c.frames.getLast? with
    | none => simp
    | some top =>
      simp only []
      split
      · simp
      · split
        · simp
        · split <;> simp
  refine ⟨⟨?_, ?_⟩, ?_, ?_⟩
  · intro herr
    rcases List.eq_nil_or_concat c.tryframes with hnil | ⟨rest, back, hstack⟩
    · exact hnil
    · rw [List.concat_eq_append] at hstack
      exact absurd herr (hnonempty rest back hstack)
  · intro hnil
    rw [hempty hnil]
  · intro hnil
    rw [hempty hnil]
  · intro rest back hstack
    rw [leave_of_concat c addr rest back hstack]
    cases hfr : c.frames.getLast? with
    | none =>
      refine ⟨rfl, rfl, rfl, fun _ => ⟨rfl, rfl⟩, ?_⟩
      intro top htop
      exact Option.noConfusion htop
    | some top =>
      have hne : c.frames ≠ [] := by
        intro hnil
        rw [hnil] at hfr
        exact Option.noConfusion hfr
      simp only []
      by_cases hlocal : (c.function_addresses top.function_name).isSome = true
      · rw [if_pos hlocal]
        refine ⟨rfl, rfl, rfl, fun hnil => absurd hnil hne, ?_⟩
        intro top1 htop1
        have ht : top = top1 := Option.some.inj htop1
        subst ht
        refine ⟨fun _ => ⟨rfl, rfl⟩, ?_, ?_⟩
        · intro hf
          rw [hf] at hlocal
          exact absurd hlocal (by simp)
        · intro hf
          rw [hf] at hlocal
          exact absurd hlocal (by simp)
      · rw [if_neg hlocal]
        cases hfun : c.linked_functions top.function_name with
        | none =>
          refine ⟨rfl, rfl, rfl, fun hnil => absurd hnil hne, ?_⟩
          intro top1 htop1
          have ht : top = top1 := Option.some.inj htop1
          subst ht
          refine ⟨fun hl => absurd hl hlocal, ?_, ?_⟩
          · intro _ module_name a n base hf
            rw [hfun] at hf
            exact Option.noConfusion hf
          · intro _ _
            exact ⟨rfl, rfl⟩
        | some link =>
          obtain ⟨module_name, a⟩ := link
          simp only []
          cases hmod : c.linked_modules module_name with
          | none =>
            refine ⟨rfl, rfl, rfl, fun hnil => absurd hnil hne, ?_⟩
            intro top1 htop1
            have ht : top = top1 := Option.some.inj htop1
            subst ht
            refine ⟨fun hl => absurd hl hlocal, ?_, ?_⟩
            · intro _ module_name1 a1 n base hf hm
              rw [hfun] at hf
              have hpair := Option.some.inj hf
              rw [Prod.mk.injEq] at hpair
              rw [← hpair.1, hmod] at hm
              exact Option.noConfusion hm
            · intro _ _
              exact ⟨rfl, rfl⟩
          | some entry =>
            obtain ⟨n, base⟩ := entry
            refine ⟨rfl, rfl, rfl, fun hnil => absurd hnil hne, ?_⟩
            intro top1 htop1
            have ht : top = top1 := Option.some.inj htop1
            subst ht
            refine ⟨fun hl => absurd hl hlocal, ?_, ?_⟩
            · intro _ module_name1 a1 n1 base1 hf hm
              rw [hfun] at hf
              have hpair := Option.some.inj hf
              rw [Prod.mk.injEq] at hpair
              rw [← hpair.1, hmod] at hm
              have hentry := Option.some.inj hm
              rw [Prod.mk.injEq] at hentry
              exact ⟨rfl, hentry.2⟩
            · intro _ hbad
              rcases hbad with hnone | ⟨module_name1, a1, hf, hm⟩
              · rw [hfun] at hnone
                exact Option.noConfusion hnone
              · rw [hfun] at hf
                have hpair := Option.some.inj hf
                rw [Prod.mk.injEq] at hpair
                rw [← hpair.1, hmod] at hm
                exact Option.noConfusion hm

/-- Witness for C20 amended: `leave` on `enteredCPU`, whose try-frame stack
holds one try frame with return address 108 and whose top frame runs `__entry`,
a function of `function_addresses`. -/
theorem leave_spec_witness :
    (leave enteredCPU 119).1 = .ok 108 ∧
    (leave enteredCPU 119).2.tryframes = [] ∧
    (leave enteredCPU 119).2.frames = enteredCPU.frames ∧
    (leave enteredCPU 119).2.jump_base = enteredCPU.bytecode := by
  have h := (leave_spec enteredCPU 119).2.2 [] _ rfl
  have hlocal := (h.2.2.2.2 _ rfl).1 (by decide)
  exact ⟨hlocal.1, h.1, h.2.1, hlocal.2⟩

/-! ## hasrefs and sole ownership -/

theorem hasrefsLoop_alias_of_true (uregisters : Int → Nat) (index : Int) (n : Nat) :
    ∀ i : Int, hasrefsLoop uregisters index n i = true →
      ∃ j, i ≤ j ∧ j < i + n ∧ j ≠ index ∧ uregisters j = uregisters index := by
  induction n with
  | zero =>
    intro i h
    simp [hasrefsLoop] at h
  | succ n ih =>
    intro i h
    rw [hasrefsLoop] at h
    by_cases hi : i = index
    · rw [if_pos hi] at h
      obtain ⟨j, h1, h2, h3, h4⟩ := ih (i + 1) h
      exact ⟨j, by omega, by push_cast; omega, h3, h4⟩
    · rw [if_neg hi] at h
      by_cases he : uregisters i = uregisters index
      · exact ⟨i, le_refl _, by push_cast; omega, hi, he⟩
      · rw [if_neg he] at h
        obtain ⟨j, h1, h2, h3, h4⟩ := ih (i + 1) h
        exact ⟨j, by omega, by push_cast; omega, h3, h4⟩

/-- What `hasrefs` computes: whether some other register of the set holds the
same address, whatever its reference flag. -/
theorem hasrefs_iff (c : CPU) (i : Int) :
    hasrefs c i = true ↔
      ∃ j, 0 ≤ j ∧ j < c.uregisters_size ∧ j ≠ i ∧ c.uregisters j = c.uregisters i := by
  unfold hasrefs
  constructor
  · intro h
    obtain ⟨j, h1, h2, h3, h4⟩ := hasrefsLoop_alias_of_true c.uregisters i _ 0 h
    have hsz : ((c.uregisters_size.toNat : Nat) : Int) = c.uregisters_size :=
      Int.toNat_of_nonneg (by omega)
    exact ⟨j, h1, by omega, h3, h4⟩
  · rintro ⟨j, h1, h2, h3, h4⟩
    have hsz : ((c.uregisters_size.toNat : Nat) : Int) = c.uregisters_size :=
      Int.toNat_of_nonneg (by omega)
    exact hasrefsLoop_of_alias c.uregisters i _ 0 j h1 (by omega) h3 h4

/-- C28 fails without any reference: on `emptyCPU` registers 0 and 1 are both
empty and neither is flagged as a reference, so no other register marked as a
reference holds the address of register 0; yet `hasrefs 0` is true, because
register 1 holds the same (null) address and the flag is never looked at. -/
theorem hasrefs_ignores_reference_flag :
    emptyCPU.uregisters_size = 2 ∧
    emptyCPU.ureferences 0 = false ∧ emptyCPU.ureferences 1 = false ∧
    emptyCPU.uregisters 1 = emptyCPU.uregisters 0 ∧
    hasrefs emptyCPU 0 = true := by
  decide

@[simp]
theorem copyvalue_uregisters_size (c : CPU) (a b : Nat) :
    (copyvalue c a b).uregisters_size = c.uregisters_size := by
  unfold copyvalue
  split <;> rfl

/-- The address a slot holds after `place` on a slot that is not flagged as a
reference. -/
theorem place_of_not_reference_apply (c : CPU) (i j : Int) (obj : Nat)
    (hhi : i < c.uregisters_size) (hnr : c.ureferences i = false) :
    (place c i obj).2.uregisters j =
      if j = i then obj
      else if 0 ≤ j ∧ j < c.uregisters_size ∧ c.ureferences j = true ∧
          c.uregisters j = c.uregisters i ∧ c.uregisters i ≠ 0 then obj
      else c.uregisters j := by
  obtain ⟨-, -, hregs⟩ := place_of_not_reference c i obj hhi hnr
  have hnri : ¬ c.ureferences i = true := by simp [hnr]
  rw [hregs]
  by_cases hji : j = i
  · subst hji
    rw [if_pos rfl]
    split
    · rw [updaterefsLoop_apply, if_neg (fun h => hnri h.2.2.2), Function.update_same]
    · exact Function.update_same _ _ _
  · rw [if_neg hji]
    by_cases hcond : 0 ≤ j ∧ j < c.uregisters_size ∧ c.ureferences j = true ∧
        c.uregisters j = c.uregisters i ∧ c.uregisters i ≠ 0
    · obtain ⟨h0, h1, hr, he, hn⟩ := hcond
      have hhas : hasrefs c i = true := (hasrefs_iff c i).mpr ⟨j, h0, h1, hji, he⟩
      have hsz : ((c.uregisters_size.toNat : Nat) : Int) = c.uregisters_size :=
        Int.toNat_of_nonneg (by omega)
      rw [if_pos ⟨hhas, hn⟩, if_pos ⟨h0, h1, hr, he, hn⟩, updaterefsLoop_apply,
        Function.update_noteq hji]
      have hc : (0 : Int) ≤ j ∧ j < 0 + ((c.uregisters_size.toNat : Nat) : Int) ∧
          c.uregisters j = c.uregisters i ∧ c.ureferences j = true :=
        ⟨h0, by omega, he, hr⟩
      rw [if_pos hc]
    · rw [if_neg hcond]
      split
      · rename_i hh
        rw [updaterefsLoop_apply, Function.update_noteq hji]
        have hc : ¬ ((0 : Int) ≤ j ∧ j < 0 + ((c.uregisters_size.toNat : Nat) : Int) ∧
            c.uregisters j = c.uregisters i ∧ c.ureferences j = true) := by
          rintro ⟨a, b, e, r⟩
          have hsz : ((c.uregisters_size.toNat : Nat) : Int) = c.uregisters_size :=
            Int.toNat_of_nonneg (by omega)
          exact hcond ⟨a, by omega, r, e, hh.2⟩
        rw [if_neg hc]
      · exact Function.update_noteq hji _ _

/-- The size and the log of destroyed objects after `place` on a slot that is
not flagged as a reference. -/
theorem place_of_not_reference_destroyed (c : CPU) (i : Int) (obj : Nat)
    (hhi : i < c.uregisters_size) (hnr : c.ureferences i = false) :
    (place c i obj).2.uregisters_size = c.uregisters_size ∧
    (place c i obj).2.destroyed =
      if c.uregisters i = 0 then c.destroyed else c.destroyed ++ [c.uregisters i] := by
  have hge : ¬ i ≥ c.uregisters_size := not_le.mpr hhi
  unfold place
  rw [if_neg hge]
  by_cases h0 : c.uregisters i = 0
  · simp only [h0, hnr, ne_eq, not_true_eq_false, false_and, if_false, Bool.false_eq_true,
      if_true]
    split_ifs <;> exact ⟨rfl, rfl⟩
  · simp only [h0, hnr, ne_eq, not_false_eq_true, and_self, if_true, deleteObject_ureferences,
      Bool.false_eq_true, if_false]
    split_ifs <;> simp [updaterefs, deleteObject_destroyed, h0]

/-- What `place` does to an empty slot that is flagged as a reference: the
read through `fetch` throws and nothing has changed. -/
theorem place_of_empty_reference (c : CPU) (i : Int) (obj : Nat)
    (hhi : i < c.uregisters_size) (h0 : c.uregisters i = 0) (hr : c.ureferences i = true) :
    (place c i obj).2 = c := by
  have hge : ¬ i ≥ c.uregisters_size := not_le.mpr hhi
  unfold place
  rw [if_neg hge]
  simp only [h0, hr, ne_eq, not_true_eq_false, false_and, if_false, if_true]
  unfold fetch
  rw [if_neg hge]
  simp [h0]

/-- C29: when no object is held by two slots that are both not flagged as
references (I1) and `obj` is held by no slot, then after `place i obj` on an
in-bounds slot `i` (I1) still holds, and no slot of the set holds the address
of an object that this `place` destroyed. -/
theorem place_preserves_sole_ownership (c : CPU) (i : Int) (obj : Nat)
    (hlo : 0 ≤ i) (hhi : i < c.uregisters_size) (hI1 : SoleOwnership c)
    (hfresh : ∀ j, 0 ≤ j → j < c.uregisters_size → c.uregisters j ≠ obj) :
    SoleOwnership (place c i obj).2 ∧
    ∃ d, (place c i obj).2.destroyed = c.destroyed ++ d ∧
      ∀ p ∈ d, ∀ j, 0 ≤ j → j < c.uregisters_size → (place c i obj).2.uregisters j ≠ p := by
  by_cases hr : c.ureferences i = true
  · by_cases h0 : c.uregisters i = 0
    · rw [place_of_empty_reference c i obj hhi h0 hr]
      refine ⟨hI1, [], by simp, ?_⟩
      intro p hp
      simp at hp
    · have hst := place_of_reference c i obj hhi h0 hr
      have hregs : (place c i obj).2.uregisters = c.uregisters := by
        rw [hst]
        simp only [deleteObject_uregisters]
        split_ifs <;> simp
      have hrefs : (place c i obj).2.ureferences = c.ureferences := by
        rw [hst]
        simp only [deleteObject_ureferences]
        split_ifs <;> simp
      have hsize : (place c i obj).2.uregisters_size = c.uregisters_size := by
        rw [hst]
        simp only [deleteObject_uregisters_size]
        split_ifs <;> simp
      have hdes : (place c i obj).2.destroyed =
          if obj = 0 then c.destroyed else c.destroyed ++ [obj] := by
        rw [hst]
        simp only [deleteObject_destroyed]
        split_ifs <;> simp
      constructor
      · intro j k hj0 hj1 hk0 hk1 hjk hrj hrk hne
        rw [hregs] at hne ⊢
        rw [hrefs] at hrj hrk
        rw [hsize] at hj1 hk1
        exact hI1 j k hj0 hj1 hk0 hk1 hjk hrj hrk hne
      · rw [hdes, hregs]
        by_cases hobj : obj = 0
        · rw [if_pos hobj]
          refine ⟨[], by simp, ?_⟩
          intro p hp
          simp at hp
        · rw [if_neg hobj]
          refine ⟨[obj], rfl, ?_⟩
          intro p hp j hj0 hj1
          rw [List.mem_singleton] at hp
          rw [hp]
          exact hfresh j hj0 hj1
  · have hnr : c.ureferences i = false := by
      cases h : c.ureferences i
      · rfl
      · exact absurd h hr
    obtain ⟨-, hrefs, -⟩ := place_of_not_reference c i obj hhi hnr
    obtain ⟨hsize, hdes⟩ := place_of_not_reference_destroyed c i obj hhi hnr
    have hown : ∀ x, c.ureferences x = false →
        (place c i obj).2.uregisters x = if x = i then obj else c.uregisters x := by
      intro x hx
      rw [place_of_not_reference_apply c i x obj hhi hnr]
      by_cases hxi : x = i
      · rw [if_pos hxi, if_pos hxi]
      · rw [if_neg hxi, if_neg hxi]
        have hc : ¬ (0 ≤ x ∧ x < c.uregisters_size ∧ c.ureferences x = true ∧
            c.uregisters x = c.uregisters i ∧ c.uregisters i ≠ 0) := by
          rintro ⟨-, -, ht, -⟩
          rw [hx] at ht
          exact Bool.noConfusion ht
        rw [if_neg hc]
    constructor
    · intro j k hj0 hj1 hk0 hk1 hjk hrj hrk hne
      rw [hrefs] at hrj hrk
      rw [hsize] at hj1 hk1
      rw [hown j hrj] at hne ⊢
      rw [hown k hrk]
      by_cases hji : j = i
      · have hki : k ≠ i := fun h => hjk (hji.trans h.symm)
        rw [if_pos hji, if_neg hki]
        exact fun h => hfresh k hk0 hk1 h.symm
      · rw [if_neg hji] at hne ⊢
        by_cases hki : k = i
        · rw [if_pos hki]
          exact hfresh j hj0 hj1
        · rw [if_neg hki]
          exact hI1 j k hj0 hj1 hk0 hk1 hjk hrj hrk hne
    · rw [hdes]
      by_cases h0 : c.uregisters i = 0
      · rw [if_pos h0]
        refine ⟨[], by simp, ?_⟩
        intro p hp
        simp at hp
      · rw [if_neg h0]
        refine ⟨[c.uregisters i], rfl, ?_⟩
        intro p hp j hj0 hj1
        rw [List.mem_singleton] at hp
        rw [hp, place_of_not_reference_apply c i j obj hhi hnr]
        by_cases hji : j = i
        · rw [if_pos hji]
          exact fun h => hfresh i hlo hhi h.symm
        · rw [if_neg hji]
          split
          · exact fun h => hfresh i hlo hhi h.symm
          · rename_i hc
            by_cases hrj : c.ureferences j = true
            · intro he
              exact hc ⟨hj0, hj1, hrj, he, h0⟩
            · have hrj2 : c.ureferences j = false := by
                cases h : c.ureferences j
                · rfl
                · exact absurd h hrj
              exact fun he => hI1 i j hlo hhi hj0 hj1 (Ne.symm hji) hnr hrj2 h0 he.symm

/-- Witness for C29: placing the Integer at address 6, held by no register, on
register 0 of `aliasedCPU`, which owns the object that register 1 refers to. -/
theorem place_preserves_sole_ownership_witness :
    SoleOwnership (place aliasedCPU 0 6).2 ∧
    ∃ d, (place aliasedCPU 0 6).2.destroyed = aliasedCPU.destroyed ++ d ∧
      ∀ p ∈ d, ∀ j, 0 ≤ j → j < aliasedCPU.uregisters_size →
        (place aliasedCPU 0 6).2.uregisters j ≠ p :=
  place_preserves_sole_ownership aliasedCPU 0 6 (by decide) (by decide)
    (by
      intro j k hj0 hj1 hk0 hk1 hjk hrj hrk _
      have hj : j = 0 ∨ j = 1 := by
        have : j < 2 := hj1
        omega
      have hk : k = 0 ∨ k = 1 := by
        have : k < 2 := hk1
        omega
      rcases hj with rfl | rfl <;> rcases hk with rfl | rfl
      · exact absurd rfl hjk
      · exact absurd hrk (by decide)
      · exact absurd hrj (by decide)
      · exact absurd rfl hjk)
    (by
      intro j hj0 hj1
      have hj : j = 0 ∨ j = 1 := by
        have : j < 2 := hj1
        omega
      rcases hj with rfl | rfl <;> decide)

/-! ## The opcodes `dispatch` routes -/

/-- The part of C27 that holds: an opcode with a `case` label is handed to its
handler, with the address after the opcode byte (the address of the opcode
byte itself for `end`); `halt`, `pass` and `nop` have no handler. -/
theorem dispatch_routes_handled (h : Handlers) (c : CPU) (a : Int) (op : OPCODE)
    (hop : OPCODE.ofByte (c.memory a) = some op) (hh : op.handled = true)
    (h1 : op ≠ .HALT) (h2 : op ≠ .PASS) (h3 : op ≠ .NOP) :
    dispatch h c a = h op c (if op = .END then a else a + 1) := by
  unfold dispatch
  rw [hop]
  cases op <;> simp_all [OPCODE.handled]

/-- C27 fails for the six opcodes of the try/catch mechanism: the bytes 59 to
64 are `tryframe`, `catch`, `pull`, `try`, `throw` and `leave`, and for each of
them `dispatch` calls no handler (every handler here would return address 50)
but throws the unrecognised-instruction error of its `default` branch. -/
theorem dispatch_misses_try_catch_opcodes :
    [59, 60, 61, 62, 63, 64].map OPCODE.ofByte =
      [some .TRYFRAME, some .CATCH, some .PULL, some .TRY, some .THROW, some .LEAVE] ∧
    ∀ b ∈ [59, 60, 61, 62, 63, 64],
      (dispatch backwardHandlers (opcodeCPU b) 100).1 =
        .error (.cstr ("unrecognised instruction (bytecode value: " ++
          toString (readInt (opcodeCPU b) 100) ++ ")")) ∧
      (dispatch backwardHandlers (opcodeCPU b) 100).1 ≠ .ok 50 := by
  decide

/-! ## What catch leaves alone -/

theorem resolveBlock_ok (c c1 : CPU) (B : String) (address : Int)
    (h : resolveBlock c B = (.ok address, c1)) :
    ∃ base, c1 = { c with jump_base := base } ∧
      ((c.block_addresses B ≠ none ∧ base = c.bytecode) ∨
        (c.block_addresses B = none ∧ ∃ module_name a n,
          c.linked_blocks B = some (module_name, a) ∧
          c.linked_modules module_name = some (n, base))) := by
  unfold resolveBlock at h
  cases hb : c.block_addresses B with
  | some offset =>
    rw [hb] at h
    simp only [Prod.mk.injEq] at h
    exact ⟨c.bytecode, h.2.symm, Or.inl ⟨by simp, rfl⟩⟩
  | none =>
    rw [hb] at h
    cases hl : c.linked_blocks B with
    | none =>
      rw [hl] at h
      simp at h
    | some link =>
      obtain ⟨module_name, a⟩ := link
      rw [hl] at h
      cases hm : c.linked_modules module_name with
      | none =>
        simp [hm] at h
      | some entry =>
        obtain ⟨n, base⟩ := entry
        simp only [hm, Prod.mk.injEq] at h
        exact ⟨base, h.2.symm, Or.inr ⟨rfl, module_name, a, n, rfl, hm⟩⟩

/-- C30, as stated, fails on `jump_base`: on `linkedCodeCPU` the instruction
`catch "E" "h"` succeeds, and `jump_base`, which was 500, is 100 afterwards. -/
theorem vmcatch_changes_jump_base :
    linkedCodeCPU.jump_base = 500 ∧
    (vmcatch 8 linkedCodeCPU 102).map (fun o => o.1) = some (.ok 106) ∧
    (vmcatch 8 linkedCodeCPU 102).map (fun o => o.2.jump_base) = some 100 := by
  decide

theorem resolveBlock_resolved (c c1 : CPU) (B : String) (address : Int)
    (h : resolveBlock c B = (.ok address, c1)) :
    (∃ offset, c.block_addresses B = some offset ∧ address = c.bytecode + offset ∧
      c1 = { c with jump_base := c.bytecode }) ∨
    (c.block_addresses B = none ∧ ∃ module_name n base,
      c.linked_blocks B = some (module_name, address) ∧
      c.linked_modules module_name = some (n, base) ∧
      c1 = { c with jump_base := base }) := by
  unfold resolveBlock at h
  cases hb : c.block_addresses B with
  | some offset =>
    rw [hb] at h
    simp only [Prod.mk.injEq, Except.ok.injEq] at h
    exact Or.inl ⟨offset, rfl, h.1.symm, h.2.symm⟩
  | none =>
    rw [hb] at h
    cases hl : c.linked_blocks B with
    | none =>
      rw [hl] at h
      simp at h
    | some link =>
      obtain ⟨module_name, a⟩ := link
      rw [hl] at h
      cases hm : c.linked_modules module_name with
      | none =>
        simp [hm] at h
      | some entry =>
        obtain ⟨n, base⟩ := entry
        simp only [hm, Prod.mk.injEq, Except.ok.injEq] at h
        rw [h.1]
        exact Or.inr ⟨rfl, module_name, n, base, rfl, hm, h.2.symm⟩

/-- C30, amended: a successful `catch` changes nothing but the catcher map of
the pending try frame and `jump_base`.  With `T` and `B` the two string
operands read at the operand address, the pending try frame binds `T` anew, to
the catcher of type `T` for the block `B` at its resolved address, and is
otherwise the same; `jump_base` becomes the base of the image that holds the
block `B`: `bytecode` when `B` is a local block, the base of its module when `B`
is a linked block.  The frame stack, the try-frame stack, `thrown`, `caught`,
the registers, the objects and every other member are the same after `catch` as
before it. -/
theorem vmcatch_frame_condition (fuel : Nat) (c c1 : CPU) (addr a : Int)
    (h : vmcatch fuel c addr = some (.ok a, c1)) :
    c1.frames = c.frames ∧ c1.tryframes = c.tryframes ∧
    c1.thrown = c.thrown ∧ c1.caught = c.caught ∧
    c1.uregisters = c.uregisters ∧ c1.ureferences = c.ureferences ∧
    c1.uregisters_size = c.uregisters_size ∧ c1.uregset = c.uregset ∧
    c1.objects = c.objects ∧
    c1 = { c with jump_base := c1.jump_base, try_frame_new := c1.try_frame_new } ∧
    (∃ T B frame block_address,
      readString c fuel addr = some T ∧
      readString c fuel (addr + ((T.length + 1 : Nat) : Int)) = some B ∧
      a = addr + ((T.length + 1 : Nat) : Int) + ((B.length + 1 : Nat) : Int) ∧
      c.try_frame_new = some frame ∧
      c1.try_frame_new = some { frame with
        catchers := Function.update frame.catchers T (some ⟨T, B, block_address⟩) } ∧
      ((∃ offset, c.block_addresses B = some offset ∧
          block_address = c.bytecode + offset ∧ c1.jump_base = c.bytecode) ∨
        (c.block_addresses B = none ∧ ∃ module_name n base,
          c.linked_blocks B = some (module_name, block_address) ∧
          c.linked_modules module_name = some (n, base) ∧ c1.jump_base = base))) := by
  unfold vmcatch at h
  cases hT : readString c fuel addr with
  | none => simp [hT] at h
  | some T =>
    simp only [hT] at h
    cases hB : readString c fuel (addr + ((T.length + 1 : Nat) : Int)) with
    | none =>
      rw [hB] at h
      exact Option.noConfusion h
    | some B =>
      rw [hB] at h
      simp only [] at h
      split at h
      · simp at h
      · rcases hres : resolveBlock c B with ⟨r, c2⟩
        rw [hres] at h
        cases r with
        | error e => simp at h
        | ok address =>
          have hresolved := resolveBlock_resolved c c2 B address hres
          simp only [] at h
          cases hp : c2.try_frame_new with
          | none => simp [hp] at h
          | some frame =>
            simp only [hp, Option.some.injEq, Prod.mk.injEq, Except.ok.injEq] at h
            obtain ⟨ha, hc1⟩ := h
            subst hc1
            rcases hresolved with ⟨offset, hblk, haddress, hc2⟩ |
              ⟨hblk, module_name, n, base, hlink, hmod, hc2⟩
            · subst hc2
              exact ⟨rfl, rfl, rfl, rfl, rfl, rfl, rfl, rfl, rfl, rfl,
                T, B, frame, address, rfl, hB, ha.symm, hp, rfl,
                Or.inl ⟨offset, hblk, haddress, rfl⟩⟩
            · subst hc2
              exact ⟨rfl, rfl, rfl, rfl, rfl, rfl, rfl, rfl, rfl, rfl,
                T, B, frame, address, rfl, hB, ha.symm, hp, rfl,
                Or.inr ⟨hblk, module_name, n, base, hlink, hmod, rfl⟩⟩

/-- Witness for C30 amended: `catch "E" "h"` on `linkedCodeCPU`, where "h" is a
local block at offset 20 of the image at 100: nothing but the pending try frame
and `jump_base` changes, "E" is bound to the catcher for "h" at address 120 and
`jump_base` is 100. -/
theorem vmcatch_frame_condition_witness :
    ∃ c1, vmcatch 8 linkedCodeCPU 102 = some (.ok 106, c1) ∧
      c1.frames = linkedCodeCPU.frames ∧ c1.tryframes = linkedCodeCPU.tryframes ∧
      c1.thrown = linkedCodeCPU.thrown ∧ c1.caught = linkedCodeCPU.caught ∧
      c1.jump_base = 100 ∧
      c1.try_frame_new.bind (fun frame => frame.catchers "E") = some ⟨"E", "h", 120⟩ := by
  rcases hv : vmcatch 8 linkedCodeCPU 102 with _ | ⟨r, c1⟩
  · exact absurd (congrArg Option.isSome hv) (by decide)
  · have hr : r = .ok 106 := by
      have h1 : (vmcatch 8 linkedCodeCPU 102).map (fun o => o.1) = some (.ok 106) := by decide
      rw [hv] at h1
      exact Option.some.inj h1
    subst hr
    have hw := vmcatch_frame_condition 8 linkedCodeCPU c1 102 106 hv
    obtain ⟨T, B, frame, block_address, hT, hB, -, hpend, hnew, hbase⟩ := hw.2.2.2.2.2.2.2.2.2.2
    have hT1 : readString linkedCodeCPU 8 102 = some "E" := by decide
    rw [hT1] at hT
    have hTE : T = "E" := (Option.some.inj hT).symm
    subst hTE
    have hB1 : readString linkedCodeCPU 8 (102 + ((("E" : String).length + 1 : Nat) : Int)) =
        some "h" := by decide
    rw [hB1] at hB
    have hBh : B = "h" := (Option.some.inj hB).symm
    subst hBh
    have hlocal : linkedCodeCPU.block_addresses "h" = some 20 := by decide
    have hjump : c1.jump_base = 100 ∧ block_address = 120 := by
      rcases hbase with ⟨offset, hblk, haddress, hj⟩ | ⟨hblk, -⟩
      · rw [hlocal] at hblk
        have ho : offset = 20 := (Option.some.inj hblk).symm
        subst ho
        exact ⟨hj, haddress⟩
      · rw [hlocal] at hblk
        exact Option.noConfusion hblk
    refine ⟨c1, rfl, hw.1, hw.2.1, hw.2.2.1, hw.2.2.2.1, hjump.1, ?_⟩
    rw [hnew, hjump.2]
    simp

/-! ## Static registers -/

theorem zeroLoop_apply (n : Nat) :
    ∀ (i : Int) (arrays : (Int → Nat) × (Int → Bool)) (j : Int),
      (zeroLoop n i arrays).1 j = (if i ≤ j ∧ j < i + n then 0 else arrays.1 j) ∧
      (zeroLoop n i arrays).2 j = (if i ≤ j ∧ j < i + n then false else arrays.2 j) := by
  induction n with
  | zero =>
    intro i arrays j
    have hc : ¬ (i ≤ j ∧ j < i + ((0 : Nat) : Int)) := by omega
    simp only [zeroLoop, if_neg hc, and_self]
  | succ n ih =>
    intro i arrays j
    rw [zeroLoop]
    obtain ⟨h1, h2⟩ := ih (i + 1) (Function.update arrays.1 i 0, Function.update arrays.2 i false) j
    rw [h1, h2]
    by_cases hji : j = i
    · subst hji
      have ha : ¬ (j + 1 ≤ j ∧ j < j + 1 + (n : Int)) := by omega
      have hb : j ≤ j ∧ j < j + ((n + 1 : Nat) : Int) := ⟨le_refl _, by push_cast; omega⟩
      simp only [if_neg ha, if_pos hb, Function.update_same, and_self]
    · by_cases hc : i ≤ j ∧ j < i + ((n + 1 : Nat) : Int)
      · have ha : i + 1 ≤ j ∧ j < i + 1 + (n : Int) := by
          push_cast at hc
          omega
        simp only [if_pos ha, if_pos hc, and_self]
      · have ha : ¬ (i + 1 ≤ j ∧ j < i + 1 + (n : Int)) := by
          push_cast at hc
          omega
        simp only [if_neg ha, if_neg hc, Function.update_noteq hji, and_self]

/-- C22: after `ensureStaticRegisters f` the table has an entry for `f`; when
`f` had none, the new entry has size 16 and its 16 slots are all null and none
is flagged as a reference, whatever the fresh arrays held; when `f` had an
entry it is the same entry afterwards; the entries of all other function names
are unchanged. -/
theorem ensureStaticRegisters_spec (fresh_registers : Int → Nat)
    (fresh_references : Int → Bool) (c : CPU) (f : String) :
    (ensureStaticRegisters fresh_registers fresh_references c f).static_registers f ≠ none ∧
    (c.static_registers f = none →
      ∃ s_registers s_references,
        (ensureStaticRegisters fresh_registers fresh_references c f).static_registers f =
          some (s_registers, s_references, 16) ∧
        ∀ i : Int, 0 ≤ i → i < 16 → s_registers i = 0 ∧ s_references i = false) ∧
    (∀ entry, c.static_registers f = some entry →
      (ensureStaticRegisters fresh_registers fresh_references c f).static_registers f =
        some entry) ∧
    (∀ g, g ≠ f →
      (ensureStaticRegisters fresh_registers fresh_references c f).static_registers g =
        c.static_registers g) := by
  cases hf : c.static_registers f with
  | some entry =>
    have he : ensureStaticRegisters fresh_registers fresh_references c f = c := by
      unfold ensureStaticRegisters
      rw [hf]
    rw [he]
    refine ⟨?_, ?_, ?_, ?_⟩
    · rw [hf]
      exact fun h => Option.noConfusion h
    · intro h
      exact Option.noConfusion h
    · intro e he2
      rw [hf]
      exact he2
    · intro g _
      rfl
  | none =>
    have he : (ensureStaticRegisters fresh_registers fresh_references c f).static_registers =
        Function.update c.static_registers f
          (some ((zeroLoop 16 0 (fresh_registers, fresh_references)).1,
            (zeroLoop 16 0 (fresh_registers, fresh_references)).2, 16)) := by
      unfold ensureStaticRegisters
      rw [hf]
      rfl
    rw [he]
    refine ⟨?_, ?_, ?_, ?_⟩
    · simp only [Function.update_same]
      exact fun h => Option.noConfusion h
    · intro _
      refine ⟨_, _, Function.update_same _ _ _, ?_⟩
      intro i h0 h16
      obtain ⟨h1, h2⟩ := zeroLoop_apply 16 0 (fresh_registers, fresh_references) i
      have hc : (0 : Int) ≤ i ∧ i < 0 + ((16 : Nat) : Int) := ⟨h0, by omega⟩
      rw [if_pos hc] at h1 h2
      exact ⟨h1, h2⟩
    · intro e he2
      exact Option.noConfusion he2
    · intro g hg
      exact Function.update_noteq hg _ _

/-- Witness for C22: a function without static registers yet, the fresh arrays
holding garbage. -/
theorem ensureStaticRegisters_spec_witness :
    ∃ s_registers s_references,
      (ensureStaticRegisters (fun _ => 7) (fun _ => true) emptyCPU "f").static_registers "f" =
        some (s_registers, s_references, 16) ∧
      ∀ i : Int, 0 ≤ i → i < 16 → s_registers i = 0 ∧ s_references i = false :=
  (ensureStaticRegisters_spec (fun _ => 7) (fun _ => true) emptyCPU "f").2.1 rfl

/-! ## Closures -/

/-- C23: the copy of a closure has the function name of the original and the
very same register array, reference-flag array and register count (the pointers
are copied, not the arrays), and its `type()` and `str()` are those of the
original. -/
theorem closure_copy_shares_registers (closure : Closure) :
    closure.copy.function_name = closure.function_name ∧
    closure.copy.registers = closure.registers ∧
    closure.copy.references = closure.references ∧
    closure.copy.registers_size = closure.registers_size ∧
    closure.copy.type = closure.type ∧
    closure.copy.str = closure.str :=
  ⟨rfl, rfl, rfl, rfl, rfl, rfl⟩

/-! ## The entry frame -/

theorem vectorPush_of_vector (c : CPU) (v item : Nat) (type : String) (items : List Nat)
    (hv : c.objects v = some ⟨type, .vec items⟩) :
    vectorPush c v item =
      { c with objects := Function.update c.objects v (some ⟨type, .vec (items ++ [item])⟩) } := by
  unfold vectorPush
  rw [hv]

/-- The members other than the heap that the argument loop leaves alone. -/
theorem cmdlineLoop_preserves (v : Nat) :
    ∀ (arguments : List String) (c : CPU),
      (cmdlineLoop v arguments c).frames = c.frames ∧
      (cmdlineLoop v arguments c).registers = c.registers ∧
      (cmdlineLoop v arguments c).references = c.references ∧
      (cmdlineLoop v arguments c).reg_count = c.reg_count := by
  intro arguments
  induction arguments with
  | nil =>
    intro c
    exact ⟨rfl, rfl, rfl, rfl⟩
  | cons argument rest ih =>
    intro c
    rw [cmdlineLoop]
    obtain ⟨h1, h2, h3, h4⟩ := ih (vectorPush (newObject c ⟨"String", .str argument⟩).2 v
      (newObject c ⟨"String", .str argument⟩).1)
    rw [h1, h2, h3, h4]
    unfold vectorPush
    split <;> exact ⟨rfl, rfl, rfl, rfl⟩

/-- What the argument loop does to the heap: it appends to the vector at `v`
the addresses of new Strings that carry the arguments, in order. -/
theorem cmdlineLoop_objects (v : Nat) (type : String) :
    ∀ (arguments : List String) (c : CPU) (items : List Nat),
      c.objects v = some ⟨type, .vec items⟩ → v ≤ c.last_allocated →
      ∃ added : List Nat,
        (cmdlineLoop v arguments c).objects v = some ⟨type, .vec (items ++ added)⟩ ∧
        added.map (cmdlineLoop v arguments c).objects =
          arguments.map (fun a => some ⟨"String", .str a⟩) ∧
        ∀ p, p ≤ c.last_allocated → p ≠ v → (cmdlineLoop v arguments c).objects p = c.objects p := by
  intro arguments
  induction arguments with
  | nil =>
    intro c items hv _
    refine ⟨[], ?_, rfl, fun _ _ _ => rfl⟩
    rw [List.append_nil]
    exact hv
  | cons argument rest ih =>
    intro c items hv hle
    rw [cmdlineLoop]
    have hs : v ≠ c.last_allocated + 1 := by omega
    have hv1 : (newObject c ⟨"String", .str argument⟩).2.objects v = some ⟨type, .vec items⟩ := by
      show Function.update c.objects (c.last_allocated + 1) _ v = _
      rw [Function.update_noteq hs]
      exact hv
    have hpush := vectorPush_of_vector (newObject c ⟨"String", .str argument⟩).2 v
      (newObject c ⟨"String", .str argument⟩).1 type items hv1
    have hobj : (vectorPush (newObject c ⟨"String", .str argument⟩).2 v
        (newObject c ⟨"String", .str argument⟩).1).objects =
        Function.update
          (Function.update c.objects (c.last_allocated + 1) (some ⟨"String", .str argument⟩)) v
          (some ⟨type, .vec (items ++ [c.last_allocated + 1])⟩) := by
      rw [hpush]
      rfl
    have hlast : (vectorPush (newObject c ⟨"String", .str argument⟩).2 v
        (newObject c ⟨"String", .str argument⟩).1).last_allocated = c.last_allocated + 1 := by
      rw [hpush]
      rfl
    obtain ⟨added, h1, h2, h3⟩ := ih
      (vectorPush (newObject c ⟨"String", .str argument⟩).2 v
        (newObject c ⟨"String", .str argument⟩).1)
      (items ++ [c.last_allocated + 1])
      (by rw [hobj]; exact Function.update_same _ _ _)
      (by rw [hlast]; omega)
    rw [hlast] at h3
    refine ⟨(c.last_allocated + 1) :: added, ?_, ?_, ?_⟩
    · rw [h1, List.append_assoc]
      rfl
    · rw [List.map_cons, List.map_cons, h2]
      congr 1
      rw [h3 (c.last_allocated + 1) (le_refl _) (Ne.symm hs), hobj,
        Function.update_noteq (Ne.symm hs), Function.update_same]
    · intro p hp hpv
      rw [h3 p (show p ≤ c.last_allocated + 1 by omega) hpv, hobj,
        Function.update_noteq hpv,
        Function.update_noteq (show p ≠ c.last_allocated + 1 by omega)]

/-- C24: `iframe` called without a frame pushes one frame, named "__entry",
on the frame stack; the register set of that frame is the current register
set; and register 1 holds a Vector whose elements are Strings that carry the
command-line arguments, as many and in the same order. -/
theorem iframe_entry_frame (c : CPU) :
    ∃ (entry : Frame) (items : List Nat),
      (iframe c none).frames = c.frames ++ [entry] ∧
      entry.function_name = "__entry" ∧
      (iframe c none).uregisters = entry.registers ∧
      (iframe c none).ureferences = entry.references ∧
      (iframe c none).uregisters_size = entry.registers_size ∧
      (iframe c none).objects ((iframe c none).uregisters 1) = some ⟨"Vector", .vec items⟩ ∧
      items.map (iframe c none).objects =
        c.commandline_arguments.map (fun a => some ⟨"String", .str a⟩) := by
  obtain ⟨added, h1, h2, -⟩ := cmdlineLoop_objects (newObject c ⟨"Vector", .vec []⟩).1 "Vector"
    c.commandline_arguments (newObject c ⟨"Vector", .vec []⟩).2 []
    (Function.update_same _ _ _) (le_refl _)
  obtain ⟨hf, -, -, -⟩ := cmdlineLoop_preserves (newObject c ⟨"Vector", .vec []⟩).1
    c.commandline_arguments (newObject c ⟨"Vector", .vec []⟩).2
  have hframes : (iframe c none).frames =
      (cmdlineLoop (newObject c ⟨"Vector", .vec []⟩).1 c.commandline_arguments
        (newObject c ⟨"Vector", .vec []⟩).2).frames ++
      [{ function_name := "__entry"
         registers_size := (iframe c none).uregisters_size
         registers := (iframe c none).uregisters
         references := (iframe c none).ureferences }] := rfl
  have hreg : (iframe c none).uregisters 1 = (newObject c ⟨"Vector", .vec []⟩).1 := by
    simp [iframe]
  have hobjects : (iframe c none).objects =
      (cmdlineLoop (newObject c ⟨"Vector", .vec []⟩).1 c.commandline_arguments
        (newObject c ⟨"Vector", .vec []⟩).2).objects := rfl
  refine ⟨{ function_name := "__entry"
            registers_size := (iframe c none).uregisters_size
            registers := (iframe c none).uregisters
            references := (iframe c none).ureferences },
    added, ?_, rfl, rfl, rfl, rfl, ?_, ?_⟩
  · rw [hframes, hf]
    rfl
  · rw [hreg, hobjects, h1]
    rfl
  · rw [hobjects]
    exact h2

/-! ## run -/

theorem toInt_range (v : Int) : -2147483648 ≤ toInt v ∧ toInt v < 2147483648 := by
  unfold toInt
  omega

theorem toInt_of_int (v : Int) (hlo : -2147483648 ≤ v) (hhi : v < 2147483648) :
    toInt v = v := by
  unfold toInt
  omega

/-- The end of `run`, after the tick loop: the return code and the frame given
to `delete`. -/
theorem run_of_loop_end (h : Handlers) (fuel : Nat) (c c1 : CPU) (hloaded : c.bytecode ≠ 0)
    (hloop : tickLoop h fuel (begin (iframe c none)).2 = some (.ok (), c1))
    (hfr : c1.return_exception ≠ "" ∨ c1.frames ≠ []) (code : Int)
    (hcode : (if c1.return_code = 0 ∧ c1.uregisters 0 ≠ 0 then
        (integerValue c1 (c1.uregisters 0)).map (fun v => { c1 with return_code := toInt v })
      else some c1).map CPU.return_code = some code) :
    (run h fuel c).map (fun o => o.1) = some (.ok (toInt code)) := by
  unfold run
  rw [if_neg hloaded, hloop]
  simp only []
  cases hret : (if c1.return_code = 0 ∧ c1.uregisters 0 ≠ 0 then
      (integerValue c1 (c1.uregisters 0)).map (fun v => { c1 with return_code := toInt v })
    else some c1) with
  | none =>
    rw [hret] at hcode
    exact Option.noConfusion hcode
  | some c2 =>
    rw [hret] at hcode
    have hc : c2.return_code = code := Option.some.inj hcode
    have hsame : c2.return_exception = c1.return_exception ∧ c2.frames = c1.frames := by
      split at hret
      · cases hv : integerValue c1 (c1.uregisters 0) with
        | none =>
          rw [hv] at hret
          exact Option.noConfusion hret
        | some v =>
          rw [hv] at hret
          have := Option.some.inj hret
          rw [← this]
          exact ⟨rfl, rfl⟩
      · have := Option.some.inj hret
        rw [← this]
        exact ⟨rfl, rfl⟩
    simp only []
    by_cases hex : c2.return_exception = ""
    · rw [if_pos hex]
      have hne : c1.frames ≠ [] := by
        rcases hfr with h1 | h1
        · rw [hsame.1] at hex
          exact absurd hex h1
        · exact h1
      rw [hsame.2, List.getLast?_eq_getLast _ hne]
      simp only [Option.map_some', hc]
    · rw [if_neg hex]
      simp only [Option.map_some', hc]

/-- Every code that `run` returns is an `int`. -/
theorem run_code_range (h : Handlers) (fuel : Nat) (c : CPU) (code : Int) (c2 : CPU)
    (hrun : run h fuel c = some (.ok code, c2)) :
    -2147483648 ≤ code ∧ code < 2147483648 := by
  unfold run at hrun
  split at hrun
  · simp at hrun
  · split at hrun
    · exact Option.noConfusion hrun
    · simp at hrun
    · simp only [] at hrun
      split at hrun
      · simp at hrun
      · split at hrun
        · split at hrun
          · simp at hrun
          · simp only [Option.some.injEq, Prod.mk.injEq, Except.ok.injEq] at hrun
            rw [← hrun.1]
            exact toInt_range _
        · simp only [Option.some.injEq, Prod.mk.injEq, Except.ok.injEq] at hrun
          rw [← hrun.1]
          exact toInt_range _

/-- C21, as stated, fails in three ways.  On `wideCPU` the program halts at its
first tick with the Integer 2^32 + 5 in register 0 of the entry frame, and `run`
returns 5.  On `calleeCPU`, with handlers whose `call` enters a function that
has the Integer 7 in its register 0, the program halts inside that function:
register 0 of the entry frame, the first frame of the stack, holds the Integer
5, and `run` returns 7.  On `endCPU`, with handlers whose `end` pops the entry
frame, the tick loop ends without error on an empty frame stack, and `run`
returns no code: it calls `delete` on `back()` of the empty frame stack. -/
theorem run_return_code_fails :
    wideCPU.objects (wideCPU.registers 0) = some ⟨"Integer", .int 4294967301⟩ ∧
    (run backwardHandlers 1 wideCPU).map (fun o => o.1) = some (.ok 5) ∧
    (run frameHandlers 2 calleeCPU).map (fun o => o.1) = some (.ok 7) ∧
    (run frameHandlers 2 calleeCPU).map
      (fun o => o.2.frames.map (fun frame => (frame.function_name,
        o.2.objects (frame.registers 0)))) =
      some [("__entry", some ⟨"Integer", .int 5⟩), ("f", some ⟨"Integer", .int 7⟩)] ∧
    (tickLoop frameHandlers 1 (begin (iframe endCPU none)).2).map
      (fun o => (o.1, o.2.return_code, o.2.return_exception, o.2.frames.length)) =
      some (.ok (), 0, "", 0) ∧
    (run frameHandlers 1 endCPU).map (fun o => o.1) = some (.error .undefined) := by
  decide

/-- C21, amended: `run` throws at once, leaving the state as it was, when no
bytecode is loaded.  Otherwise, when the tick loop has ended in the state `c1`
with an exception type recorded or with a frame left on the frame stack: the
code returned is 0 when `return_code` is 0 and register 0 of the current
register set is empty; it is `v` converted to `int`, which is `v` itself when
`v` is an `int`, when `return_code` is 0 and that register holds the Integer
`v`; and it is `return_code`, whatever register 0 holds, when a tick has set it
to a non-zero value.  When `run` starts the tick loop the current register set
is that of the entry frame, the last frame of the stack.  Every code returned
is an `int`. -/
theorem run_return_code (h : Handlers) (fuel : Nat) (c : CPU) :
    (c.bytecode = 0 →
      run h fuel c = some (.error (.cstr "null bytecode (maybe not loaded?)"), c)) ∧
    (c.bytecode ≠ 0 → ∀ c1, tickLoop h fuel (begin (iframe c none)).2 = some (.ok (), c1) →
      (c1.return_exception ≠ "" ∨ c1.frames ≠ []) →
      (c1.return_code = 0 → c1.uregisters 0 = 0 →
        (run h fuel c).map (fun o => o.1) = some (.ok 0)) ∧
      (c1.return_code = 0 → c1.uregisters 0 ≠ 0 →
        ∀ v, c1.objects (c1.uregisters 0) = some ⟨"Integer", .int v⟩ →
        (run h fuel c).map (fun o => o.1) = some (.ok (toInt v)) ∧
        (-2147483648 ≤ v → v < 2147483648 →
          (run h fuel c).map (fun o => o.1) = some (.ok v))) ∧
      (c1.return_code ≠ 0 →
        (run h fuel c).map (fun o => o.1) = some (.ok (toInt c1.return_code)) ∧
        (-2147483648 ≤ c1.return_code → c1.return_code < 2147483648 →
          (run h fuel c).map (fun o => o.1) = some (.ok c1.return_code)))) ∧
    (∃ entry, (begin (iframe c none)).2.frames.getLast? = some entry ∧
      entry.function_name = "__entry" ∧
      (begin (iframe c none)).2.uregisters = entry.registers ∧
      (begin (iframe c none)).2.ureferences = entry.references ∧
      (begin (iframe c none)).2.uregisters_size = entry.registers_size) ∧
    (∀ code c2, run h fuel c = some (.ok code, c2) →
      -2147483648 ≤ code ∧ code < 2147483648) := by
  refine ⟨?_, ?_, ?_, fun code c2 hrun => run_code_range h fuel c code c2 hrun⟩
  · intro h0
    unfold run
    rw [if_pos h0]
  · intro hloaded c1 hloop hfr
    refine ⟨?_, ?_, ?_⟩
    · intro hrc hreg
      have hc : ¬ (c1.return_code = 0 ∧ c1.uregisters 0 ≠ 0) := fun hh => hh.2 hreg
      have hrun := run_of_loop_end h fuel c c1 hloaded hloop hfr 0 (by
        rw [if_neg hc]
        simp only [Option.map_some', hrc])
      exact hrun
    · intro hrc hreg v hv
      have hi : integerValue c1 (c1.uregisters 0) = some v := by
        unfold integerValue
        rw [hv]
      have hrun := run_of_loop_end h fuel c c1 hloaded hloop hfr (toInt v) (by
        rw [if_pos ⟨hrc, hreg⟩, hi]
        rfl)
      rw [toInt_of_int _ (toInt_range v).1 (toInt_range v).2] at hrun
      refine ⟨hrun, ?_⟩
      intro hlo hhi
      rw [toInt_of_int v hlo hhi] at hrun
      exact hrun
    · intro hrc
      have hc : ¬ (c1.return_code = 0 ∧ c1.uregisters 0 ≠ 0) := fun hh => hrc hh.1
      have hrun := run_of_loop_end h fuel c c1 hloaded hloop hfr c1.return_code (by
        rw [if_neg hc]
        rfl)
      refine ⟨hrun, ?_⟩
      intro hlo hhi
      rw [toInt_of_int _ hlo hhi] at hrun
      exact hrun
  · refine ⟨{ function_name := "__entry"
              registers_size := (iframe c none).uregisters_size
              registers := (iframe c none).uregisters
              references := (iframe c none).ureferences }, ?_, rfl, rfl, rfl, rfl⟩
    simp [begin, iframe]

/-- Witness for C21 amended: `loadedCPU` halts at its first tick with the
Integer 5 in register 0 and the entry frame on the frame stack, and `run`
returns 5. -/
theorem run_return_code_witness :
    (run backwardHandlers 1 loadedCPU).map (fun o => o.1) = some (.ok 5) :=
  ((((run_return_code backwardHandlers 1 loadedCPU).2.1 (by decide)
    (counted (begin (iframe loadedCPU none)).2) rfl (Or.inr (List.cons_ne_nil _ _))).2.1
    rfl (by decide) 5 rfl).2 (by decide) (by decide))

/-! ## The function table -/

theorem cstringOfList_of_name (name : List Char) (rest : List Nat)
    (hname : ∀ ch ∈ name, ch.toNat ≠ 0) :
    cstringOfList (name.map Char.toNat ++ 0 :: rest) = some name := by
  induction name with
  | nil =>
    show cstringOfList (0 :: rest) = some []
    rw [cstringOfList, if_pos rfl]
  | cons ch tail ih =>
    have hch : ch.toNat ≠ 0 := hname ch (List.mem_cons_self _ _)
    have htail : ∀ x ∈ tail, x.toNat ≠ 0 := fun x hx => hname x (List.mem_cons_of_mem _ hx)
    show cstringOfList (ch.toNat :: (tail.map Char.toNat ++ 0 :: rest)) = some (ch :: tail)
    rw [cstringOfList, if_neg hch, ih htail, Option.map_some', Char.ofNat_toNat]

theorem uint16_of_offset (offset : Nat) (h : offset < 65536) :
    uint16 (offset % 256) (offset / 256 % 256) = offset := by
  unfold uint16
  omega

theorem encodeFunctionTable_cons (entry : String × Nat) (rest : List (String × Nat)) :
    encodeFunctionTable (entry :: rest) =
      entry.1.data.map Char.toNat ++ 0 :: entry.2 % 256 :: entry.2 / 256 % 256 ::
        encodeFunctionTable rest := rfl

theorem encodeFunctionTable_length_ge (entries : List (String × Nat)) :
    entries.length ≤ (encodeFunctionTable entries).length := by
  induction entries with
  | nil => exact Nat.le_refl _
  | cons entry rest ih =>
    rw [encodeFunctionTable_cons]
    simp only [List.length_append, List.length_cons, List.length_map]
    omega

theorem storeEntries_cons (entry : String × Nat) (rest : List (String × Nat))
    (mapping : String → Option Nat) :
    storeEntries (entry :: rest) mapping =
      storeEntries rest (Function.update mapping entry.1 (some entry.2)) := rfl

/-- The loop on a buffer that ends with an encoded table, started at the first
byte of that table: it stores the entries in order. -/
theorem functionTableLoop_of_encoded :
    ∀ (entries : List (String × Nat)) (before : List Nat) (mapping : String → Option Nat)
      (fuel : Nat),
      (∀ e ∈ entries, ∀ ch ∈ e.1.data, ch.toNat ≠ 0) →
      (∀ e ∈ entries, e.2 < 65536) →
      entries.length ≤ fuel →
      functionTableLoop (before ++ encodeFunctionTable entries)
          (before ++ encodeFunctionTable entries).length fuel before.length mapping =
        .done (storeEntries entries mapping) := by
  intro entries
  induction entries with
  | nil =>
    intro before mapping fuel _ _ _
    have hlt : ¬ before.length < (before ++ encodeFunctionTable []).length := by
      rw [show encodeFunctionTable [] = [] from rfl, List.append_nil]
      exact Nat.lt_irrefl _
    cases fuel with
    | zero =>
      rw [functionTableLoop, if_neg hlt]
      rfl
    | succ n =>
      rw [functionTableLoop, if_neg hlt]
      rfl
  | cons entry rest ih =>
    intro before mapping fuel hnames hoffsets hfuel
    cases fuel with
    | zero => simp at hfuel
    | succ n =>
      have hname : ∀ ch ∈ entry.1.data, ch.toNat ≠ 0 := hnames entry (List.mem_cons_self _ _)
      have hoff : entry.2 < 65536 := hoffsets entry (List.mem_cons_self _ _)
      have hlt : before.length < (before ++ encodeFunctionTable (entry :: rest)).length := by
        rw [encodeFunctionTable_cons]
        simp only [List.length_append, List.length_cons, List.length_map]
        omega
      have hdrop : (before ++ encodeFunctionTable (entry :: rest)).drop before.length =
          entry.1.data.map Char.toNat ++ 0 :: entry.2 % 256 :: entry.2 / 256 % 256 ::
            encodeFunctionTable rest := by
        rw [List.drop_left, encodeFunctionTable_cons]
      have hsplit : before ++ encodeFunctionTable (entry :: rest) =
          (before ++ (entry.1.data.map Char.toNat ++ [0])) ++
            (entry.2 % 256 :: entry.2 / 256 % 256 :: encodeFunctionTable rest) := by
        rw [encodeFunctionTable_cons]
        simp only [List.append_assoc, List.cons_append, List.nil_append]
      have hlen1 : (before ++ (entry.1.data.map Char.toNat ++ [0])).length =
          before.length + ((String.mk entry.1.data).length + 1) := by
        simp only [List.length_append, List.length_map, List.length_cons, List.length_nil,
          String.length]
      have hdrop1 : (before ++ encodeFunctionTable (entry :: rest)).drop
          (before.length + ((String.mk entry.1.data).length + 1)) =
          entry.2 % 256 :: entry.2 / 256 % 256 :: encodeFunctionTable rest := by
        rw [← hlen1, hsplit, List.drop_left]
      have hsplit2 : before ++ encodeFunctionTable (entry :: rest) =
          (before ++ (entry.1.data.map Char.toNat ++ [0, entry.2 % 256, entry.2 / 256 % 256])) ++
            encodeFunctionTable rest := by
        rw [encodeFunctionTable_cons]
        simp only [List.append_assoc, List.cons_append, List.nil_append]
      have hlen2 : (before ++ (entry.1.data.map Char.toNat ++
          [0, entry.2 % 256, entry.2 / 256 % 256])).length =
          before.length + ((String.mk entry.1.data).length + 1) + 2 := by
        simp only [List.length_append, List.length_map, List.length_cons, List.length_nil,
          String.length]
        omega
      have hih := ih (before ++ (entry.1.data.map Char.toNat ++
        [0, entry.2 % 256, entry.2 / 256 % 256]))
        (Function.update mapping (String.mk entry.1.data) (some entry.2)) n
        (fun e he => hnames e (List.mem_cons_of_mem _ he))
        (fun e he => hoffsets e (List.mem_cons_of_mem _ he))
        (by simp only [List.length_cons] at hfuel; omega)
      rw [← hsplit2, hlen2] at hih
      rw [functionTableLoop, if_pos hlt, hdrop, cstringOfList_of_name _ _ hname]
      simp only []
      rw [hdrop1]
      simp only []
      rw [uint16_of_offset _ hoff, hih, storeEntries_cons]

/-- The mapping built by storing the entries in order sends a name that is not
listed to what it was sent to before and a listed name to the offset of its
last entry. -/
theorem storeEntries_spec (entries : List (String × Nat)) :
    ∀ (mapping : String → Option Nat),
      (∀ name, (∀ e ∈ entries, e.1 ≠ name) → storeEntries entries mapping name = mapping name) ∧
      (∀ front name offset back, entries = front ++ (name, offset) :: back →
        (∀ e ∈ back, e.1 ≠ name) → storeEntries entries mapping name = some offset) := by
  induction entries with
  | nil =>
    intro mapping
    refine ⟨fun _ _ => rfl, ?_⟩
    intro front name offset back h
    simp at h
  | cons entry rest ih =>
    intro mapping
    obtain ⟨ih1, ih2⟩ := ih (Function.update mapping entry.1 (some entry.2))
    constructor
    · intro name hnot
      rw [storeEntries_cons, ih1 name (fun e he => hnot e (List.mem_cons_of_mem _ he))]
      exact Function.update_noteq (Ne.symm (hnot entry (List.mem_cons_self _ _))) _ _
    · intro front name offset back hsplit hback
      rw [storeEntries_cons]
      cases front with
      | nil =>
        simp only [List.nil_append, List.cons.injEq] at hsplit
        obtain ⟨he, hr⟩ := hsplit
        subst he
        subst hr
        rw [ih1 name hback]
        exact Function.update_same _ _ _
      | cons first others =>
        simp only [List.cons_append, List.cons.injEq] at hsplit
        exact ih2 others name offset back hsplit.2 hback

/-- The loop ends within the iterations it is given when these are at least
the number of bytes from `i` to the end of the table, whatever the buffer
holds: each iteration moves `i` forward. -/
theorem functionTableLoop_ends (buffer : List Nat) (size : Nat) :
    ∀ (fuel i : Nat) (mapping : String → Option Nat), size ≤ i + fuel →
      functionTableLoop buffer size fuel i mapping ≠ .out_of_fuel := by
  intro fuel
  induction fuel with
  | zero =>
    intro i mapping hle
    have hlt : ¬ i < size := by omega
    rw [functionTableLoop, if_neg hlt]
    exact fun h => Parsed.noConfusion h
  | succ n ih =>
    intro i mapping hle
    rw [functionTableLoop]
    split
    · split
      · exact fun h => Parsed.noConfusion h
      · simp only []
        split
        · exact ih _ _ (by omega)
        · exact fun h => Parsed.noConfusion h
    · exact fun h => Parsed.noConfusion h

/-- C25: the loop that parses the function table ends on every buffer, whatever
its bytes; and on the table made of each name (no zero byte in it), a zero
byte and the offset as a 16-bit little-endian integer, it yields a mapping that
sends every name that is not listed to nothing and every listed name to the
offset of its last entry. -/
theorem function_table_parse (entries : List (String × Nat))
    (hnames : ∀ e ∈ entries, ∀ ch ∈ e.1.data, ch.toNat ≠ 0)
    (hoffsets : ∀ e ∈ entries, e.2 < 65536) :
    (∀ (buffer : List Nat) (size : Nat) (mapping : String → Option Nat),
      functionTableLoop buffer size size 0 mapping ≠ .out_of_fuel) ∧
    ∃ mapping,
      functionTableLoop (encodeFunctionTable entries) (encodeFunctionTable entries).length
        (encodeFunctionTable entries).length 0 (fun _ => none) = .done mapping ∧
      (∀ name, (∀ e ∈ entries, e.1 ≠ name) → mapping name = none) ∧
      (∀ front name offset back, entries = front ++ (name, offset) :: back →
        (∀ e ∈ back, e.1 ≠ name) → mapping name = some offset) := by
  constructor
  · intro buffer size mapping
    exact functionTableLoop_ends buffer size size 0 mapping (by omega)
  · have hloop := functionTableLoop_of_encoded entries [] (fun _ => none)
      (encodeFunctionTable entries).length hnames hoffsets
      (encodeFunctionTable_length_ge entries)
    rw [List.nil_append] at hloop
    obtain ⟨h1, h2⟩ := storeEntries_spec entries (fun _ => none)
    exact ⟨_, hloop, h1, h2⟩

/-- Witness for C25: a table of three entries, two of them for the name "f". -/
theorem function_table_parse_witness :
    ∃ mapping,
      functionTableLoop (encodeFunctionTable [("f", 3), ("g", 300), ("f", 9)])
        (encodeFunctionTable [("f", 3), ("g", 300), ("f", 9)]).length
        (encodeFunctionTable [("f", 3), ("g", 300), ("f", 9)]).length 0 (fun _ => none) =
          .done mapping ∧
      mapping "h" = none ∧ mapping "f" = some 9 ∧ mapping "g" = some 300 := by
  obtain ⟨mapping, h1, h2, h3⟩ :=
    (function_table_parse [("f", 3), ("g", 300), ("f", 9)] (by decide) (by decide)).2
  exact ⟨mapping, h1, h2 "h" (by decide),
    h3 [("f", 3), ("g", 300)] "f" 9 [] rfl (by decide),
    h3 [("f", 3)] "g" 300 [("f", 9)] rfl (by decide)⟩

/-- C26 fails on the second read: the loader reads sixteen bytes, not two, to
get the bytecode size.  On `smallFile`, a file of the documented layout with
three bytes of bytecode, fewer than sixteen bytes follow the function table
and the loader stops with a fatal error; on `longFile` the size 2 is read from
the two bytes after the table, but the image taken is the bytes 25, 26 that
come sixteen bytes after the table, not the bytes 11, 12 that follow the size. -/
theorem loader_reads_sixteen_bytes_for_size :
    smallFile = [10, 0, 95, 95, 101, 110, 116, 114, 121, 0, 0, 0, 3, 0, 56, 0, 0] ∧
    fatalMessage (loadFile (fun _ => 0) smallFile) =
      some "fatal: an error occued during bytecode loading: cannot read size" ∧
    loadedImage (loadFile (fun _ => 0) smallFile) = none ∧
    loadedImage (loadFile (fun _ => 0) longFile) = some (2, [25, 26]) ∧
    (longFile.drop 4).take 2 = [11, 12] := by
  decide

/-! ## try followed by leave -/

end Wudoo
